import Mathlib

/-!
Shallow embedding of the sudoku engine (validator, solver, generator,
strategy classifier) of this repository, together with proofs about it.

Modelling conventions:
* A JS grid `(number | null)[][]` becomes `List (List (Option Nat))`.
  Reading an out-of-range index yields `none` (JS `undefined` compares
  unequal to every number in the scans, which is the same behaviour);
  writing out of range leaves the list unchanged (the code never does it).
* In-place mutation becomes explicit state passing: functions that mutate
  a grid return the grid they leave behind.  Functions of the source that
  must not mutate the caller's grid additionally return the caller's grid
  after the call, so that the frame claims are statable.
* The recursive searches of the source terminate but not structurally;
  they are embedded with an explicit fuel argument and return `none`
  exactly when the fuel runs out (which the source cannot do, so every
  theorem is stated on the `some` results).
* The non-deterministic sources `Math.random` and `Date.now` are modelled
  by an explicit environment `Env`; `Math.random()` is only ever consumed
  as `Math.floor(random() * bound)`, so the environment provides that
  floor directly (indexed by call site and draw count).
* Numbers: all grid arithmetic of the source stays below 2^53 where it is
  exact in JS doubles, so plain `Nat` is used; classifier confidences are
  modelled as `ℚ`.
-/

abbrev CellValue := Option Nat

abbrev SudokuGrid := List (List CellValue)

/-- Read `grid[r][c]`; out-of-range reads give `none`. -/
def gcell (grid : SudokuGrid) (r c : Nat) : CellValue :=
  (grid.getD r []).getD c none

/-- Write `grid[r][c] = v`; out-of-range writes are the identity. -/
def gset (grid : SudokuGrid) (r c : Nat) (v : CellValue) : SudokuGrid :=
  grid.set r ((grid.getD r []).set c v)

/-- The supported grid sizes, the TS union type `4 | 6 | 9`. -/
inductive GridSize where
  | four | six | nine
deriving DecidableEq, Repr

def GridSize.toNat : GridSize → Nat
  | .four => 4
  | .six => 6
  | .nine => 9

inductive Difficulty where
  | beginner | easy | medium | hard | expert
deriving DecidableEq, Repr

/-- validator.ts `getBoxDimensions`.  The source throws on sizes outside
{4,6,9}; the embedding returns the junk value `(0, 0)` there (every claim
only concerns supported sizes, where the two agree). -/
def getBoxDimensions (gridSize : Nat) : Nat × Nat :=
  if gridSize = 4 then (2, 2)
  else if gridSize = 6 then (2, 3)
  else if gridSize = 9 then (3, 3)
  else (0, 0)

/-- validator.ts `isValidMove`: bounds check, range check, then row,
column and box conflict scans, each skipping the cell itself.  (`row < 0`
of the source cannot occur for `Nat` indices.) -/
def isValidMove (grid : SudokuGrid) (row col value : Nat) : Bool :=
  let gridSize := grid.length
  if row ≥ gridSize || col ≥ gridSize then false
  else if value < 1 || value > gridSize then false
  else if (List.range gridSize).any (fun c => c ≠ col && gcell grid row c = some value) then false
  else if (List.range gridSize).any (fun r => r ≠ row && gcell grid r col = some value) then false
  else
    let bd := getBoxDimensions gridSize
    let boxRow := row / bd.1 * bd.1
    let boxCol := col / bd.2 * bd.2
    !((List.range' boxRow bd.1).any (fun r =>
        (List.range' boxCol bd.2).any (fun c =>
          (r ≠ row || c ≠ col) && gcell grid r c = some value)))

/-- Row-major list of the `n × n` cell coordinates, the iteration order of
the nested `for` loops of the source. -/
def cellsList (n : Nat) : List (Nat × Nat) :=
  (List.range n).flatMap (fun r => (List.range n).map (fun c => (r, c)))

/-- validator.ts `isValidGrid`, loop body: each filled cell is temporarily
emptied, re-checked with `isValidMove`, and restored (also on the early
`false` return).  The returned grid is the state of the caller's grid
when the function returns. -/
def isValidGridGo : List (Nat × Nat) → SudokuGrid → Bool × SudokuGrid
  | [], grid => (true, grid)
  | (r, c) :: rest, grid =>
    match gcell grid r c with
    | none => isValidGridGo rest grid
    | some v =>
      let g1 := gset grid r c none
      let valid := isValidMove g1 r c v
      let g2 := gset g1 r c (some v)
      if valid then isValidGridGo rest g2 else (false, g2)

def isValidGrid (grid : SudokuGrid) : Bool × SudokuGrid :=
  isValidGridGo (cellsList grid.length) grid

/-- Boolean result of `isValidGrid`. -/
def isValidGridB (grid : SudokuGrid) : Bool := (isValidGrid grid).1

/-- validator.ts `getCandidates`. -/
def getCandidates (grid : SudokuGrid) (row col : Nat) : List Nat :=
  if gcell grid row col ≠ none then []
  else (List.range' 1 grid.length).filter (fun v => isValidMove grid row col v)

/-- validator.ts `createEmptyGrid`. -/
def createEmptyGrid (size : Nat) : SudokuGrid :=
  List.replicate size (List.replicate size none)

/-- validator.ts `cloneGrid` (`grid.map(row => [...row])`): a two-level
copy, which at value level is the identity. -/
def cloneGrid (grid : SudokuGrid) : SudokuGrid :=
  grid.map (fun row => row.map (fun c => c))

/-- solver.ts `findEmptyCell`, loop state: remaining cells to scan, the
current minimum candidate count and the current best cell.  Zero
candidates return immediately; a newly found singleton candidate set
returns immediately as well. -/
def findEmptyCellGo (grid : SudokuGrid) :
    List (Nat × Nat) → Nat → Option (Nat × Nat) → Option (Nat × Nat)
  | [], _, best => best
  | (r, c) :: rest, minC, best =>
    if gcell grid r c = none then
      let cands := getCandidates grid r c
      if cands.length = 0 then some (r, c)
      else if cands.length < minC then
        if cands.length = 1 then some (r, c)
        else findEmptyCellGo grid rest cands.length (some (r, c))
      else findEmptyCellGo grid rest minC best
    else findEmptyCellGo grid rest minC best

/-- solver.ts `findEmptyCell` (MRV heuristic). -/
def findEmptyCell (grid : SudokuGrid) : Option (Nat × Nat) :=
  findEmptyCellGo grid (cellsList grid.length) (grid.length + 1) none

/-- solver.ts `solve`, inner `for num` loop.  `recur` is the recursive
call; backtracking clears the cell of whatever grid the failed recursion
left behind, exactly as `grid[row][col] = null` does. -/
def solveTry (recur : SudokuGrid → Option (Bool × SudokuGrid))
    (grid : SudokuGrid) (row col : Nat) : List Nat → Option (Bool × SudokuGrid)
  | [] => some (false, grid)
  | num :: rest =>
    if isValidMove grid row col num then
      match recur (gset grid row col (some num)) with
      | none => none
      | some (true, g2) => some (true, g2)
      | some (false, g2) => solveTry recur (gset g2 row col none) row col rest
    else solveTry recur grid row col rest

/-- solver.ts `solve`: backtracking search, in place; the returned grid is
the state of the (mutated) argument grid when the call returns. -/
def solve : Nat → SudokuGrid → Option (Bool × SudokuGrid)
  | 0, _ => none
  | fuel + 1, grid =>
    match findEmptyCell grid with
    | none => some (true, grid)
    | some (r, c) => solveTry (solve fuel) grid r c (List.range' 1 grid.length)

/-- solver.ts `getSolution`: solves a private copy; the second component
is the caller's grid after the call. -/
def getSolution (fuel : Nat) (grid : SudokuGrid) :
    Option (Option SudokuGrid × SudokuGrid) :=
  match solve fuel (cloneGrid grid) with
  | none => none
  | some (true, solved) => some (some solved, grid)
  | some (false, _) => some (none, grid)

/-- solver.ts `hasUniqueSolution`, inner `findSolutions` `for num` loop. -/
def findSolsTry (recur : SudokuGrid → List SudokuGrid → Option (List SudokuGrid))
    (maxSolutions : Nat) (g : SudokuGrid) (row col : Nat) :
    List Nat → List SudokuGrid → Option (List SudokuGrid)
  | [], sols => some sols
  | num :: rest, sols =>
    if isValidMove g row col num then
      match recur (gset g row col (some num)) sols with
      | none => none
      | some sols2 =>
        if sols2.length ≥ maxSolutions then some sols2
        else findSolsTry recur maxSolutions g row col rest sols2
    else findSolsTry recur maxSolutions g row col rest sols

/-- solver.ts `hasUniqueSolution`, inner `findSolutions`: records each
completed grid, stopping at `maxSolutions`. -/
def findSolutions : Nat → Nat → SudokuGrid → List SudokuGrid → Option (List SudokuGrid)
  | 0, _, _, _ => none
  | fuel + 1, maxSolutions, g, sols =>
    if sols.length ≥ maxSolutions then some sols
    else
      match findEmptyCell g with
      | none => some (sols ++ [cloneGrid g])
      | some (r, c) => findSolsTry (findSolutions fuel maxSolutions) maxSolutions g r c (List.range' 1 g.length) sols

/-- solver.ts `hasUniqueSolution`: searches a private copy for up to two
solutions.  Second component: the caller's grid after the call. -/
def hasUniqueSolution (fuel : Nat) (grid : SudokuGrid) : Option (Bool × SudokuGrid) :=
  match findSolutions fuel 2 (cloneGrid grid) [] with
  | none => none
  | some sols => some (sols.length = 1, grid)

def hasUniqueSolutionR (fuel : Nat) (grid : SudokuGrid) : Option Bool :=
  (hasUniqueSolution fuel grid).map (·.1)

/-- solver.ts `countSolutions`, inner loop. -/
def countTry (recur : SudokuGrid → Nat → Option Nat)
    (maxCount : Nat) (g : SudokuGrid) (row col : Nat) : List Nat → Nat → Option Nat
  | [], count => some count
  | num :: rest, count =>
    if isValidMove g row col num then
      match recur (gset g row col (some num)) count with
      | none => none
      | some count2 =>
        if count2 ≥ maxCount then some count2
        else countTry recur maxCount g row col rest count2
    else countTry recur maxCount g row col rest count

/-- solver.ts `countSolutions`, inner `countSolutionsRecursive`. -/
def countSolutionsGo : Nat → Nat → SudokuGrid → Nat → Option Nat
  | 0, _, _, _ => none
  | fuel + 1, maxCount, g, count =>
    if count ≥ maxCount then some count
    else
      match findEmptyCell g with
      | none => some (count + 1)
      | some (r, c) => countTry (countSolutionsGo fuel maxCount) maxCount g r c (List.range' 1 g.length) count

/-- solver.ts `countSolutions`: counts solutions of a private copy, capped
at `maxCount`.  Second component: the caller's grid after the call. -/
def countSolutions (fuel : Nat) (grid : SudokuGrid) (maxCount : Nat) :
    Option (Nat × SudokuGrid) :=
  match countSolutionsGo fuel maxCount (cloneGrid grid) 0 with
  | none => none
  | some n => some (n, grid)

def countSolutionsR (fuel : Nat) (grid : SudokuGrid) (maxCount : Nat) : Option Nat :=
  (countSolutions fuel grid maxCount).map (·.1)

/-- solver.ts `getHint`: MRV cell, zero-candidate bailout, then a solve of
a private copy.  Second component: the caller's grid after the call. -/
def getHint (fuel : Nat) (grid : SudokuGrid) :
    Option (Option (Nat × Nat × Nat) × SudokuGrid) :=
  match findEmptyCell grid with
  | none => some (none, grid)
  | some (r, c) =>
    if (getCandidates grid r c).length = 0 then some (none, grid)
    else
      match solve fuel (cloneGrid grid) with
      | none => none
      | some (true, solved) =>
        match gcell solved r c with
        | some v => some (some (r, c, v), grid)
        | none => some (none, grid)
      | some (false, _) => some (none, grid)

/-! ### Strategy classifier (strategies.ts) -/

inductive Strategy where
  | elimination | single_candidate | hidden_single | naked_pair | naked_triple
  | hidden_pair | pointing_pair | box_line_reduction | x_wing | guessing
  | unknown | advanced
deriving DecidableEq, Repr

/-- strategies.ts `StrategyResult` (the never-assigned optional field
`eliminatedCandidates` is omitted; confidences are modelled as `ℚ`). -/
structure StrategyResult where
  strategy : Strategy
  confidence : ℚ
  explanation : String
  affectedCells : Option (List (Nat × Nat))
deriving DecidableEq, Repr

/-- strategies.ts `getRowCells`. -/
def getRowCells (gridSize row : Nat) : List (Nat × Nat) :=
  (List.range gridSize).map (fun c => (row, c))

/-- strategies.ts `getColumnCells`. -/
def getColumnCells (gridSize col : Nat) : List (Nat × Nat) :=
  (List.range gridSize).map (fun r => (r, col))

/-- strategies.ts `getBoxCells` (excludes the cell itself). -/
def getBoxCells (gridSize row col : Nat) : List (Nat × Nat) :=
  let boxSize := if gridSize = 4 then 2 else if gridSize = 6 then 2 else 3
  let boxColSize := if gridSize = 6 then 3 else boxSize
  let boxRow := row / boxSize * boxSize
  let boxCol := col / boxColSize * boxColSize
  ((List.range' boxRow boxSize).flatMap (fun r =>
    (List.range' boxCol boxColSize).map (fun c => (r, c)))).filter
    (fun rc => rc.1 ≠ row ∨ rc.2 ≠ col)

/-- strategies.ts `getRelatedCells`: row, column and box cells, then
deduplicated keeping the first occurrence (JS `Map` insertion order). -/
def getRelatedCells (gridSize row col : Nat) : List (Nat × Nat) :=
  let cells :=
    ((List.range gridSize).filterMap (fun c => if c ≠ col then some (row, c) else none)) ++
    ((List.range gridSize).filterMap (fun r => if r ≠ row then some (r, col) else none)) ++
    getBoxCells gridSize row col
  cells.foldl (fun acc cell => if cell ∈ acc then acc else acc ++ [cell]) []

/-- strategies.ts `countValueInRowCandidates`. -/
def countValueInRowCandidates (grid : SudokuGrid) (row value : Nat) : List Nat :=
  (List.range grid.length).filter (fun col =>
    gcell grid row col = none && (getCandidates grid row col).contains value)

/-- strategies.ts `countValueInColumnCandidates`. -/
def countValueInColumnCandidates (grid : SudokuGrid) (col value : Nat) : List Nat :=
  (List.range grid.length).filter (fun row =>
    gcell grid row col = none && (getCandidates grid row col).contains value)

/-- strategies.ts `countValueInBoxCandidates`. -/
def countValueInBoxCandidates (grid : SudokuGrid) (row col value : Nat) :
    List (Nat × Nat) :=
  let gridSize := grid.length
  let boxSize := if gridSize = 4 then 2 else if gridSize = 6 then 2 else 3
  let boxColSize := if gridSize = 6 then 3 else boxSize
  let boxRow := row / boxSize * boxSize
  let boxCol := col / boxColSize * boxColSize
  ((List.range' boxRow boxSize).flatMap (fun r =>
    (List.range' boxCol boxColSize).map (fun c => (r, c)))).filter
    (fun rc => gcell grid rc.1 rc.2 = none &&
      (getCandidates grid rc.1 rc.2).contains value)

/-- strategies.ts `arraysEqual`. -/
def arraysEqual (a b : List Nat) : Bool := a = b

/-- strategies.ts `detectHiddenSingle`: row, then column, then box. -/
def detectHiddenSingle (grid : SudokuGrid) (row col value : Nat) :
    Option StrategyResult :=
  let gridSize := grid.length
  let rowPositions := countValueInRowCandidates grid row value
  if rowPositions.length = 1 && rowPositions.getD 0 0 = col then
    some ⟨.hidden_single, 0.95,
      toString value ++ " could only go in this position in row " ++
        toString (row + 1) ++ ". All other cells in this row already ruled out " ++
        toString value ++ ".",
      some (getRowCells gridSize row)⟩
  else
    let colPositions := countValueInColumnCandidates grid col value
    if colPositions.length = 1 && colPositions.getD 0 0 = row then
      some ⟨.hidden_single, 0.95,
        toString value ++ " could only go in this position in column " ++
          toString (col + 1) ++ ". All other cells in this column already ruled out " ++
          toString value ++ ".",
        some (getColumnCells gridSize col)⟩
    else
      let boxPositions := countValueInBoxCandidates grid row col value
      if boxPositions.length = 1 && boxPositions.getD 0 (0, 0) = (row, col) then
        some ⟨.hidden_single, 0.95,
          toString value ++ " could only go in this position in this box. All other cells in this box already ruled out " ++
            toString value ++ ".",
          some (getBoxCells gridSize row col)⟩
      else none

/-- strategies.ts `detectNakedSet`: a 2-candidate cell matched by another
2-candidate cell in the same row (the played value is never consulted). -/
def detectNakedSet (grid : SudokuGrid) (row col _value : Nat) :
    Option StrategyResult :=
  let candidates := getCandidates grid row col
  if candidates.length = 2 then
    let gridSize := grid.length
    ((List.range gridSize).filter (fun c =>
        c ≠ col && gcell grid row c = none &&
        (getCandidates grid row c).length = 2 &&
        arraysEqual (List.insertionSort (· ≤ ·) candidates)
          (List.insertionSort (· ≤ ·) (getCandidates grid row c)))).head?.map
      (fun c =>
        ⟨.naked_pair, 0.85,
          "This cell and another cell in row " ++ toString (row + 1) ++
            " both have only " ++ String.intercalate " and "
              (candidates.map toString) ++
            " as possibilities, forming a Naked Pair.",
          some [(row, col), (row, c)]⟩)
  else none

/-- strategies.ts `detectStrategy`: the ordered rule ladder. -/
def detectStrategy (grid : SudokuGrid) (row col value : Nat) : StrategyResult :=
  let gridSize := grid.length
  let candidates := getCandidates grid row col
  if candidates.length = 1 && candidates.getD 0 0 = value then
    ⟨.single_candidate, 1,
      "This cell could only be " ++ toString value ++
        ". All other numbers were already used in this row, column, or box.",
      some (getRelatedCells gridSize row col)⟩
  else
    match detectHiddenSingle grid row col value with
    | some result => result
    | none =>
      if candidates.length ≤ 3 && candidates.contains value then
        ⟨.elimination, 0.8,
          "By eliminating other numbers, " ++ toString value ++
            " was one of the few remaining possibilities for this cell.",
          some (getRelatedCells gridSize row col)⟩
      else
        match detectNakedSet grid row col value with
        | some result => result
        | none =>
          if candidates.contains value then
            ⟨.unknown, 0.5,
              toString value ++
                " was a valid choice for this cell, but the specific strategy used is unclear.",
              none⟩
          else
            ⟨.guessing, 0.3,
              "This move doesn't follow a clear logical pattern. Consider looking for cells with fewer possibilities first.",
              none⟩

/-! ### Generator (generator.ts) -/

/-- generator.ts `seededRandom`, one step of the linear-congruential
state: `state = (state * 9301 + 49297) % 233280`. -/
def rngNext (state : Nat) : Nat := (state * 9301 + 49297) % 233280

/-- Explicit model of the non-deterministic sources.  `rand tag k bound`
is `Math.floor(Math.random() * bound)` for draw number `k` at call site
`tag` (the only way the source consumes `Math.random`); the `date*`
fields are the values `Date.now()` returns at the three call sites. -/
structure Env where
  rand : Nat → Nat → Nat → Nat
  dateNow : Nat
  dateNowId : Nat
  dateNowCreated : Nat

/-- State of the `random` closure handed to `shuffleArray`: either the
seeded LCG or the external `Math.random` stream. -/
inductive Rnd where
  | seeded (state : Nat)
  | external (tag : Nat) (k : Nat)

/-- One evaluation of `Math.floor(random() * bound)`.  For the seeded
source `random()` is `state' / 233280` with `state' < 233280`, so the
floor is exactly `state' * bound / 233280` in `Nat` arithmetic. -/
def rndFloor (env : Env) (r : Rnd) (bound : Nat) : Nat × Rnd :=
  match r with
  | .seeded st =>
    let st2 := rngNext st
    (st2 * bound / 233280, .seeded st2)
  | .external t k => (env.rand t k bound, .external t (k + 1))

/-- The JS destructuring swap `[a[i], a[j]] = [a[j], a[i]]`; out-of-range
indices (which the source never produces) leave the list unchanged. -/
def lswap (l : List α) (i j : Nat) : List α :=
  match l.get? i, l.get? j with
  | some a, some b => (l.set i b).set j a
  | _, _ => l

/-- generator.ts `shuffleArray`, loop on `i` from `length - 1` down to
`1`: swap index `i` with `j = floor(random() * (i + 1))`. -/
def shuffleGo (env : Env) : List α → Rnd → Nat → List α × Rnd
  | l, r, 0 => (l, r)
  | l, r, i + 1 =>
    let (j, r2) := rndFloor env r (i + 2)
    shuffleGo env (lswap l (i + 1) j) r2 i

/-- generator.ts `shuffleArray` (Fisher–Yates with the given source). -/
def shuffleArray (env : Env) (l : List α) (r : Rnd) : List α × Rnd :=
  shuffleGo env l r (l.length - 1)

/-- generator.ts `generateSolvedGrid`, first-row loop:
`grid[0][c] = numbers[c]` for `c < size`. -/
def setRow0 (grid : SudokuGrid) (numbers : List Nat) (size : Nat) : SudokuGrid :=
  (List.range size).foldl (fun g c => gset g 0 c (some (numbers.getD c 0))) grid

/-- generator.ts `generateSolvedGrid`: shuffle `[1..size]` into row 0 and
run `solve` (whose boolean result the source ignores). -/
def generateSolvedGrid (env : Env) (fuel : Nat) (size : GridSize)
    (seed : Option Nat) : Option SudokuGrid :=
  let n := size.toNat
  let r0 : Rnd := match seed with | some s => .seeded s | none => .external 0 0
  let (numbers, _) := shuffleArray env (List.range' 1 n) r0
  let grid := setRow0 (createEmptyGrid n) numbers n
  match solve fuel grid with
  | none => none
  | some (_, g2) => some g2

/-- generator.ts `getCluesForDifficulty`.  The TS `switch` covers all of
`GridSize × Difficulty`, so its trailing fallback is dead code. -/
def getCluesForDifficulty (size : GridSize) (difficulty : Difficulty) : Nat :=
  match size, difficulty with
  | .four, .beginner => 12
  | .four, .easy => 10
  | .four, .medium => 8
  | .four, .hard => 6
  | .four, .expert => 5
  | .six, .beginner => 27
  | .six, .easy => 24
  | .six, .medium => 20
  | .six, .hard => 16
  | .six, .expert => 14
  | .nine, .beginner => 50
  | .nine, .easy => 40
  | .nine, .medium => 32
  | .nine, .hard => 26
  | .nine, .expert => 22

/-- generator.ts `removeNumbers`, loop over the shuffled positions: clear
the cell, keep the clearing only if the grid still has a unique
solution, stop once `count` cells are cleared. -/
def removeGo (fuel count : Nat) : List (Nat × Nat) → SudokuGrid → Nat → Option SudokuGrid
  | [], g, _ => some g
  | (r, c) :: rest, g, removed =>
    if removed ≥ count then some g
    else
      let backup := gcell g r c
      let g1 := gset g r c none
      match hasUniqueSolutionR fuel g1 with
      | none => none
      | some true => removeGo fuel count rest g1 (removed + 1)
      | some false => removeGo fuel count rest (gset g1 r c backup) removed

/-- generator.ts `removeNumbers` (seeded source uses state `seed * 2`). -/
def removeNumbers (env : Env) (fuel : Nat) (grid : SudokuGrid) (count : Nat)
    (seed : Option Nat) : Option SudokuGrid :=
  let r0 : Rnd := match seed with | some s => .seeded (s * 2) | none => .external 1 0
  let positions := cellsList grid.length
  let (pos2, _) := shuffleArray env positions r0
  removeGo fuel count pos2 grid 0

def difficultyName : Difficulty → String
  | .beginner => "beginner"
  | .easy => "easy"
  | .medium => "medium"
  | .hard => "hard"
  | .expert => "expert"

/-- generator.ts `generatePuzzleId` (`seed || Date.now()`: a falsy seed,
0 or absent, falls back to `Date.now()`). -/
def generatePuzzleId (env : Env) (size : GridSize) (difficulty : Difficulty)
    (seed : Option Nat) : String :=
  let timestamp := match seed with
    | some s => if s = 0 then env.dateNowId else s
    | none => env.dateNowId
  toString size.toNat ++ "x" ++ toString size.toNat ++ "-" ++
    difficultyName difficulty ++ "-" ++ toString timestamp

/-- types.ts `Puzzle` (`createdAt : Date` modelled as the `Date.now`
value of the environment). -/
structure Puzzle where
  id : String
  grid : SudokuGrid
  solution : SudokuGrid
  difficulty : Difficulty
  gridSize : GridSize
  createdAt : Nat
deriving DecidableEq, Repr

/-- generator.ts `generatePuzzle`.  The first `Nat` is the retry budget
(the source retries without bound when the final uniqueness check fails;
`seed ? seed + 1 : Date.now()` treats the falsy seed 0 like an absent
one), the second is solver fuel. -/
def generatePuzzle (env : Env) : Nat → Nat → GridSize → Difficulty → Option Nat → Option Puzzle
  | 0, _, _, _, _ => none
  | retries + 1, fuel, size, difficulty, seed =>
    match generateSolvedGrid env fuel size seed with
    | none => none
    | some solution =>
      let grid := cloneGrid solution
      let clues := getCluesForDifficulty size difficulty
      let total := size.toNat * size.toNat
      match removeNumbers env fuel grid (total - clues) seed with
      | none => none
      | some grid2 =>
        match hasUniqueSolutionR fuel grid2 with
        | none => none
        | some true =>
          some ⟨generatePuzzleId env size difficulty seed, grid2, solution,
            difficulty, size, env.dateNowCreated⟩
        | some false =>
          let seed2 : Nat := match seed with
            | some s => if s = 0 then env.dateNow else s + 1
            | none => env.dateNow
          generatePuzzle env retries fuel size difficulty (some seed2)

/-! ### Basic grid lemmas -/

/-- All rows have the same length as the grid (an `N × N` grid). -/
def SquareG (g : SudokuGrid) : Prop := ∀ row ∈ g, row.length = g.length

theorem getD_set_self {α : Type _} (l : List α) (i : Nat) (x d : α)
    (h : i < l.length) : (l.set i x).getD i d = x := by
  rw [List.getD_eq_getElem?_getD, List.getElem?_set_self h]
  rfl

theorem getD_set_ne {α : Type _} (l : List α) (i j : Nat) (x d : α)
    (h : j ≠ i) : (l.set i x).getD j d = l.getD j d := by
  rw [List.getD_eq_getElem?_getD, List.getElem?_set_ne (fun he => h he.symm),
    ← List.getD_eq_getElem?_getD]

theorem getD_set_oob {α : Type _} (l : List α) (i j : Nat) (x d : α)
    (h : l.length ≤ i) : (l.set i x).getD j d = l.getD j d := by
  rw [List.set_eq_of_length_le h]

theorem getD_oob {α : Type _} (l : List α) (i : Nat) (d : α)
    (h : l.length ≤ i) : l.getD i d = d := by
  rw [List.getD_eq_getElem?_getD, List.getElem?_eq_none h]
  rfl

theorem getD_lt {α : Type _} (l : List α) (i : Nat) (d : α)
    (h : i < l.length) : l.getD i d = l.get ⟨i, h⟩ := by
  rw [List.getD_eq_getElem?_getD, List.getElem?_eq_getElem h]
  rfl

theorem gset_length (g : SudokuGrid) (r c : Nat) (v : CellValue) :
    (gset g r c v).length = g.length := by
  simp [gset]

theorem gcell_gset_ne (g : SudokuGrid) (r c r' c' : Nat) (v : CellValue)
    (h : ¬(r' = r ∧ c' = c)) : gcell (gset g r c v) r' c' = gcell g r' c' := by
  unfold gcell gset
  by_cases hrr : r' = r
  · subst hrr
    have hcc : c' ≠ c := fun he => h ⟨rfl, he⟩
    by_cases hlen : r' < g.length
    · rw [getD_set_self g r' _ [] hlen, getD_set_ne _ _ _ _ _ hcc]
    · rw [getD_set_oob g r' r' _ [] (Nat.le_of_not_lt hlen)]
  · rw [getD_set_ne g r r' _ [] hrr]

theorem gcell_gset_self (g : SudokuGrid) (r c : Nat) (v : CellValue)
    (hr : r < g.length) (hc : c < (g.getD r []).length) :
    gcell (gset g r c v) r c = v := by
  unfold gcell gset
  rw [getD_set_self g r _ [] hr, getD_set_self _ c v none hc]

theorem list_set_getD_self₀ {α : Type _} (l : List α) (i : Nat) (d : α)
    (h : i < l.length) : l.set i (l.getD i d) = l := by
  apply List.ext_getElem?
  intro n
  by_cases hn : n = i
  · subst hn
    rw [List.getElem?_set_self h, List.getD_eq_getElem?_getD,
      List.getElem?_eq_getElem h]
    rfl
  · rw [List.getElem?_set_ne (fun he => hn he.symm)]

theorem gset_cancel (g : SudokuGrid) (r c : Nat) :
    gset g r c (gcell g r c) = g := by
  unfold gset gcell
  by_cases hr : r < g.length
  · by_cases hc : c < (g.getD r []).length
    · rw [list_set_getD_self₀ (g.getD r []) c none hc]
      exact list_set_getD_self₀ g r [] hr
    · rw [List.set_eq_of_length_le (Nat.le_of_not_lt hc)]
      exact list_set_getD_self₀ g r [] hr
  · exact List.set_eq_of_length_le (Nat.le_of_not_lt hr)

theorem gset_gset (g : SudokuGrid) (r c : Nat) (v w : CellValue) :
    gset (gset g r c v) r c w = gset g r c w := by
  unfold gset
  by_cases hr : r < g.length
  · rw [List.set_set, getD_set_self g r _ [] hr, List.set_set]
  · rw [List.set_eq_of_length_le (l := g) (Nat.le_of_not_lt hr),
      List.set_eq_of_length_le (l := g) (Nat.le_of_not_lt hr)]

theorem gset_restore (g : SudokuGrid) (r c : Nat) (v : CellValue) :
    gset (gset g r c v) r c (gcell g r c) = g := by
  rw [gset_gset, gset_cancel]

theorem gset_none_of_gcell_none (g : SudokuGrid) (r c : Nat)
    (h : gcell g r c = none) : gset g r c none = g := by
  have hx := gset_cancel g r c
  rwa [h] at hx

theorem gcell_some_bounds {g : SudokuGrid} {r c : Nat} {v : Nat}
    (h : gcell g r c = some v) : r < g.length ∧ c < (g.getD r []).length := by
  unfold gcell at h
  by_cases hr : r < g.length
  · refine ⟨hr, ?_⟩
    by_contra hc
    rw [getD_oob _ c none (Nat.le_of_not_lt hc)] at h
    exact Option.noConfusion h
  · rw [getD_oob g r [] (Nat.le_of_not_lt hr), getD_oob _ c none (by simp)] at h
    exact Option.noConfusion h

theorem squareg_row_len {g : SudokuGrid} (hsq : SquareG g) {r : Nat}
    (hr : r < g.length) : (g.getD r []).length = g.length := by
  rw [getD_lt g r [] hr]
  exact hsq _ (List.get_mem g r hr)

theorem squareg_gset {g : SudokuGrid} (hsq : SquareG g) (r c : Nat) (v : CellValue) :
    SquareG (gset g r c v) := by
  intro row hrow
  rw [gset_length]
  by_cases hr : r < g.length
  · unfold gset at hrow
    rcases List.mem_or_eq_of_mem_set hrow with h | h
    · exact hsq row h
    · subst h
      rw [List.length_set]
      exact squareg_row_len hsq hr
  · have hid : gset g r c v = g := by
      unfold gset
      exact List.set_eq_of_length_le (Nat.le_of_not_lt hr)
    rw [hid] at hrow
    exact hsq row hrow

theorem gcell_none_of_col_ge {g : SudokuGrid} (hsq : SquareG g) {r c : Nat}
    (hc : g.length ≤ c) : gcell g r c = none := by
  unfold gcell
  by_cases hr : r < g.length
  · rw [getD_oob (g.getD r []) c none (by rw [squareg_row_len hsq hr]; exact hc)]
  · rw [getD_oob g r [] (Nat.le_of_not_lt hr), getD_oob _ c none (by simp)]

theorem gcell_none_of_row_ge {g : SudokuGrid} {r c : Nat}
    (hr : g.length ≤ r) : gcell g r c = none := by
  unfold gcell
  rw [getD_oob g r [] hr, getD_oob _ c none (by simp)]

theorem chain_iff (a b c d e : Bool) :
    (if a = true then false
     else if b = true then false
     else if c = true then false
     else if d = true then false
     else !e) = true ↔
      a = false ∧ b = false ∧ c = false ∧ d = false ∧ e = false := by
  cases a <;> cases b <;> cases c <;> cases d <;> cases e <;> simp

/-- Propositional characterization of `isValidMove`. -/
theorem isValidMove_iff (g : SudokuGrid) (row col value : Nat) :
    isValidMove g row col value = true ↔
      row < g.length ∧ col < g.length ∧ 1 ≤ value ∧ value ≤ g.length ∧
      (∀ c, c < g.length → c ≠ col → gcell g row c ≠ some value) ∧
      (∀ r, r < g.length → r ≠ row → gcell g r col ≠ some value) ∧
      (∀ r c,
        r ∈ List.range' (row / (getBoxDimensions g.length).1 * (getBoxDimensions g.length).1)
          (getBoxDimensions g.length).1 →
        c ∈ List.range' (col / (getBoxDimensions g.length).2 * (getBoxDimensions g.length).2)
          (getBoxDimensions g.length).2 →
        (r ≠ row ∨ c ≠ col) → gcell g r c ≠ some value) := by
  unfold isValidMove
  rw [chain_iff]
  simp only [Bool.or_eq_false_iff, decide_eq_false_iff_not, Nat.not_le, Nat.not_lt,
    List.any_eq_false, Bool.and_eq_true, decide_eq_true_eq, not_and, List.mem_range,
    Bool.or_eq_true]
  constructor
  · rintro ⟨⟨h1, h2⟩, ⟨h3, h4⟩, h5, h6, h7⟩
    refine ⟨h1, h2, h3, h4, ?_, ?_, ?_⟩
    · intro c hc hne hcell
      exact h5 c hc hne hcell
    · intro r hr hne hcell
      exact h6 r hr hne hcell
    · intro r c hrm hcm hne hcell
      have hany := h7 r hrm
      rw [List.any_eq_true] at hany
      push_neg at hany
      refine (hany c hcm) ?_
      simp only [Bool.and_eq_true, Bool.or_eq_true, decide_eq_true_eq]
      exact ⟨by tauto, hcell⟩
  · rintro ⟨h1, h2, h3, h4, h5, h6, h7⟩
    refine ⟨⟨h1, h2⟩, ⟨h3, h4⟩, ?_, ?_, ?_⟩
    · intro c hc hne hcell
      exact h5 c hc hne hcell
    · intro r hr hne hcell
      exact h6 r hr hne hcell
    · intro r hrm
      rw [List.any_eq_true]
      push_neg
      intro c hcm hp
      simp only [Bool.and_eq_true, Bool.or_eq_true, decide_eq_true_eq] at hp
      exact h7 r c hrm hcm (by tauto) hp.2

/-- The conflict scans of `isValidMove` skip the cell `(row, col)` itself,
so the cell's own content is irrelevant. -/
theorem isValidMove_gset_self (g : SudokuGrid) (row col value : Nat) (x : CellValue) :
    isValidMove (gset g row col x) row col value = isValidMove g row col value := by
  rw [Bool.eq_iff_iff, isValidMove_iff, isValidMove_iff, gset_length]
  constructor
  · rintro ⟨h1, h2, h3, h4, h5, h6, h7⟩
    refine ⟨h1, h2, h3, h4, ?_, ?_, ?_⟩
    · intro c hc hne
      have := h5 c hc hne
      rwa [gcell_gset_ne _ _ _ _ _ _ (fun hp => hne hp.2)] at this
    · intro r hr hne
      have := h6 r hr hne
      rwa [gcell_gset_ne _ _ _ _ _ _ (fun hp => hne hp.1)] at this
    · intro r c hrm hcm hne
      have := h7 r c hrm hcm hne
      rwa [gcell_gset_ne _ _ _ _ _ _ (fun hp => by
        rcases hne with h | h
        · exact h hp.1
        · exact h hp.2)] at this
  · rintro ⟨h1, h2, h3, h4, h5, h6, h7⟩
    refine ⟨h1, h2, h3, h4, ?_, ?_, ?_⟩
    · intro c hc hne
      rw [gcell_gset_ne _ _ _ _ _ _ (fun hp => hne hp.2)]
      exact h5 c hc hne
    · intro r hr hne
      rw [gcell_gset_ne _ _ _ _ _ _ (fun hp => hne hp.1)]
      exact h6 r hr hne
    · intro r c hrm hcm hne
      rw [gcell_gset_ne _ _ _ _ _ _ (fun hp => by
        rcases hne with h | h
        · exact h hp.1
        · exact h hp.2)]
      exact h7 r c hrm hcm hne

theorem mem_cellsList {n : Nat} {p : Nat × Nat} :
    p ∈ cellsList n ↔ p.1 < n ∧ p.2 < n := by
  obtain ⟨r, c⟩ := p
  simp [cellsList, List.mem_flatMap, List.mem_range]

theorem mem_getCandidates {g : SudokuGrid} {row col v : Nat} :
    v ∈ getCandidates g row col ↔
      gcell g row col = none ∧ isValidMove g row col v = true := by
  unfold getCandidates
  by_cases h : gcell g row col = none
  · rw [if_neg (by simp [h])]
    constructor
    · intro hv
      exact ⟨h, (List.mem_filter.mp hv).2⟩
    · rintro ⟨-, hv⟩
      refine List.mem_filter.mpr ⟨?_, hv⟩
      have hr := (isValidMove_iff g row col v).mp hv
      have h1 : 1 ≤ v := hr.2.2.1
      have h2 : v ≤ g.length := hr.2.2.2.1
      exact List.mem_range'_1.mpr ⟨h1, by omega⟩
  · rw [if_pos (by simp [h])]
    simp [h]

/-! ### `findEmptyCell` facts -/

theorem findEmptyCellGo_inv (g : SudokuGrid) (Q : Nat × Nat → Prop) :
    ∀ (cells : List (Nat × Nat)) (minC : Nat) (best : Option (Nat × Nat)),
      (∀ p ∈ cells, gcell g p.1 p.2 = none → Q p) →
      (∀ p, best = some p → Q p) →
      ∀ p, findEmptyCellGo g cells minC best = some p → Q p := by
  intro cells
  induction cells with
  | nil =>
    intro minC best _ hbest p hp
    exact hbest p hp
  | cons hd rest ih =>
    obtain ⟨r, c⟩ := hd
    intro minC best hcells hbest p hp
    unfold findEmptyCellGo at hp
    by_cases hg : gcell g r c = none
    · rw [if_pos hg] at hp
      by_cases h0 : (getCandidates g r c).length = 0
      · rw [if_pos h0] at hp
        cases hp
        exact hcells (r, c) (List.mem_cons_self _ _) hg
      · rw [if_neg h0] at hp
        by_cases hlt : (getCandidates g r c).length < minC
        · rw [if_pos hlt] at hp
          by_cases h1 : (getCandidates g r c).length = 1
          · rw [if_pos h1] at hp
            cases hp
            exact hcells (r, c) (List.mem_cons_self _ _) hg
          · rw [if_neg h1] at hp
            refine ih _ (some (r, c)) (fun q hq => hcells q (List.mem_cons_of_mem _ hq)) ?_ p hp
            intro q hq
            cases hq
            exact hcells (r, c) (List.mem_cons_self _ _) hg
        · rw [if_neg hlt] at hp
          exact ih _ best (fun q hq => hcells q (List.mem_cons_of_mem _ hq)) hbest p hp
    · rw [if_neg hg] at hp
      exact ih _ best (fun q hq => hcells q (List.mem_cons_of_mem _ hq)) hbest p hp

theorem findEmptyCell_spec {g : SudokuGrid} {r c : Nat}
    (h : findEmptyCell g = some (r, c)) :
    gcell g r c = none ∧ r < g.length ∧ c < g.length := by
  have := findEmptyCellGo_inv g
    (fun p => gcell g p.1 p.2 = none ∧ p.1 < g.length ∧ p.2 < g.length)
    (cellsList g.length) (g.length + 1) none
    (fun p hp hnone => ⟨hnone, (mem_cellsList.mp hp).1, (mem_cellsList.mp hp).2⟩)
    (fun p hp => Option.noConfusion hp) (r, c) h
  exact this

/-! ### C4: `solve` restores the grid on failure -/

theorem solveTry_false {fuel : Nat}
    (ih : ∀ g g', solve fuel g = some (false, g') → g' = g) :
    ∀ (nums : List Nat) (g : SudokuGrid) (r c : Nat) (g' : SudokuGrid),
      gcell g r c = none →
      solveTry (solve fuel) g r c nums = some (false, g') → g' = g := by
  intro nums
  induction nums with
  | nil =>
    intro g r c g' _ h
    unfold solveTry at h
    cases h
    rfl
  | cons num rest ihn =>
    intro g r c g' hempty h
    unfold solveTry at h
    by_cases hv : isValidMove g r c num = true
    · rw [if_pos hv] at h
      cases hrec : solve fuel (gset g r c (some num)) with
      | none =>
        rw [hrec] at h
        dsimp only at h
        exact Option.noConfusion h
      | some bg =>
        obtain ⟨b, g2⟩ := bg
        rw [hrec] at h
        cases b
        · dsimp only at h
          have hg2 : g2 = gset g r c (some num) := ih _ _ hrec
          have hreset : gset g2 r c none = g := by
            rw [hg2, gset_gset, gset_none_of_gcell_none g r c hempty]
          rw [hreset] at h
          exact ihn g r c g' hempty h
        · dsimp only at h
          simp at h
    · rw [if_neg hv] at h
      exact ihn g r c g' hempty h

theorem solve_false_grid_eq :
    ∀ (fuel : Nat) (g g' : SudokuGrid), solve fuel g = some (false, g') → g' = g := by
  intro fuel
  induction fuel with
  | zero =>
    intro g g' h
    exact Option.noConfusion h
  | succ fuel ih =>
    intro g g' h
    unfold solve at h
    cases hfe : findEmptyCell g with
    | none =>
      rw [hfe] at h
      simp at h
    | some rc =>
      rw [hfe] at h
      obtain ⟨r, c⟩ := rc
      exact solveTry_false ih _ g r c g' (findEmptyCell_spec hfe).1 h

/-- C4: on a failed search `solve` hands back exactly the grid it was
given: every placement of the backtracking chain has been undone. -/
theorem solve_false_restores (fuel : Nat) (g g' : SudokuGrid)
    (h : solve fuel g = some (false, g')) : g' = g :=
  solve_false_grid_eq fuel g g' h

/-! ### C10: `isValidGrid` restores every cell it empties -/

theorem isValidGridGo_snd : ∀ (cells : List (Nat × Nat)) (g : SudokuGrid),
    (isValidGridGo cells g).2 = g := by
  intro cells
  induction cells with
  | nil => intro g; rfl
  | cons hd rest ih =>
    obtain ⟨r, c⟩ := hd
    intro g
    unfold isValidGridGo
    cases hv : gcell g r c with
    | none => exact ih g
    | some v =>
      have hrestore : gset (gset g r c none) r c (some v) = g := by
        have hx := gset_restore g r c none
        rwa [hv] at hx
      dsimp only
      rw [hrestore]
      by_cases hval : isValidMove (gset g r c none) r c v = true
      · rw [if_pos hval]
        exact ih g
      · rw [if_neg hval]

/-- C10: although `isValidGrid` temporarily empties each filled cell
during its scan, the grid it hands back (also on the early `false`
return) is exactly the caller's grid. -/
theorem c10_isValidGrid_restores (g : SudokuGrid) : (isValidGrid g).2 = g :=
  isValidGridGo_snd (cellsList g.length) g

/-! ### C6: re-asserting an existing value -/

theorem isValidGridGo_true : ∀ (cells : List (Nat × Nat)) (g : SudokuGrid),
    (isValidGridGo cells g).1 = true →
    ∀ p ∈ cells, ∀ v, gcell g p.1 p.2 = some v →
      isValidMove (gset g p.1 p.2 none) p.1 p.2 v = true := by
  intro cells
  induction cells with
  | nil =>
    intro g _ p hp
    exact absurd hp (List.not_mem_nil p)
  | cons hd rest ih =>
    obtain ⟨r, c⟩ := hd
    intro g h p hp v hcell
    unfold isValidGridGo at h
    cases hv : gcell g r c with
    | none =>
      rw [hv] at h
      rcases List.mem_cons.mp hp with hpd | hpr
      · subst hpd
        rw [hv] at hcell
        exact Option.noConfusion hcell
      · exact ih g h p hpr v hcell
    | some w =>
      rw [hv] at h
      dsimp only at h
      have hrestore : gset (gset g r c none) r c (some w) = g := by
        have hx := gset_restore g r c none
        rwa [hv] at hx
      rw [hrestore] at h
      by_cases hval : isValidMove (gset g r c none) r c w = true
      · rw [if_pos hval] at h
        rcases List.mem_cons.mp hp with hpd | hpr
        · subst hpd
          rw [hv] at hcell
          cases hcell
          exact hval
        · exact ih g h p hpr v hcell
      · rw [if_neg hval] at h
        exact absurd h (by simp)

/-- C6 (amended): on a conflict-free grid (`isValidGrid` true), a filled
cell's own value is always a legal placement, because the conflict scans
exclude the cell itself. -/
theorem c6_reassert_own_value_legal (g : SudokuGrid) (r c v : Nat)
    (hvalid : isValidGridB g = true) (hcell : gcell g r c = some v)
    (hc : c < g.length) : isValidMove g r c v = true := by
  have hr : r < g.length := (gcell_some_bounds hcell).1
  have hmem : (r, c) ∈ cellsList g.length := mem_cellsList.mpr ⟨hr, hc⟩
  have hx := isValidGridGo_true (cellsList g.length) g hvalid (r, c) hmem v hcell
  rwa [isValidMove_gset_self] at hx

/-- A 4×4 grid with a duplicate 1 in row 0. -/
def gridC6 : SudokuGrid :=
  [[some 1, some 1, none, none],
   [none, none, none, none],
   [none, none, none, none],
   [none, none, none, none]]

/-- C6 counterexample: on a grid that violates the no-conflict invariant,
re-asserting a cell's existing value is **not** legal: the duplicate in
the row is rejected by the scan even though it is the cell's own value. -/
theorem c6_counterexample :
    gcell gridC6 0 0 = some 1 ∧ isValidMove gridC6 0 0 1 = false := by
  decide

/-- Witness for the amended C6 on a concrete conflict-free grid. -/
def gridFull4 : SudokuGrid :=
  [[some 1, some 2, some 3, some 4],
   [some 3, some 4, some 1, some 2],
   [some 2, some 1, some 4, some 3],
   [some 4, some 3, some 2, some 1]]

theorem c6_witness :
    isValidGridB gridFull4 = true ∧ gcell gridFull4 2 1 = some 1 ∧
      1 < gridFull4.length ∧ isValidMove gridFull4 2 1 1 = true :=
  ⟨by decide, by decide, by decide,
    c6_reassert_own_value_legal gridFull4 2 1 1 (by decide) (by decide) (by decide)⟩

/-! ### C7: the read-only operations hand the caller's grid back -/

/-- C7: `getSolution`, `getHint`, `hasUniqueSolution` and `countSolutions`
work on a private copy; the caller-grid component of each result is the
unchanged input grid. -/
theorem c7_private_copies (fuel maxCount : Nat) (g : SudokuGrid) :
    (∀ x, getSolution fuel g = some x → x.2 = g) ∧
    (∀ x, getHint fuel g = some x → x.2 = g) ∧
    (∀ x, hasUniqueSolution fuel g = some x → x.2 = g) ∧
    (∀ x, countSolutions fuel g maxCount = some x → x.2 = g) := by
  refine ⟨?_, ?_, ?_, ?_⟩ <;> intro x hx
  · unfold getSolution at hx
    split at hx
    · exact Option.noConfusion hx
    · cases hx; rfl
    · cases hx; rfl
  · unfold getHint at hx
    split at hx
    · cases hx; rfl
    · split at hx
      · cases hx; rfl
      · split at hx
        · exact Option.noConfusion hx
        · split at hx
          · cases hx; rfl
          · cases hx; rfl
        · cases hx; rfl
  · unfold hasUniqueSolution at hx
    split at hx
    · exact Option.noConfusion hx
    · cases hx; rfl
  · unfold countSolutions at hx
    split at hx
    · exact Option.noConfusion hx
    · cases hx; rfl

theorem c7_witness :
    (∃ x, getSolution 1 gridFull4 = some x ∧ x.2 = gridFull4) ∧
    (∃ x, getHint 1 gridFull4 = some x ∧ x.2 = gridFull4) ∧
    (∃ x, hasUniqueSolution 1 gridFull4 = some x ∧ x.2 = gridFull4) ∧
    (∃ x, countSolutions 1 gridFull4 2 = some x ∧ x.2 = gridFull4) := by
  obtain ⟨h1, h2, h3, h4⟩ := c7_private_copies 1 2 gridFull4
  exact ⟨⟨(some gridFull4, gridFull4), by decide, h1 _ (by decide)⟩,
    ⟨(none, gridFull4), by decide, h2 _ (by decide)⟩,
    ⟨(true, gridFull4), by decide, h3 _ (by decide)⟩,
    ⟨(1, gridFull4), by decide, h4 _ (by decide)⟩⟩

/-! ### C9: the seeded linear-congruential generator -/

/-- State of generator.ts `seededRandom(seed)` after `n` calls of the
returned closure (state 0 is the seed itself, before any call). -/
def seededRandomState (seed : Nat) : Nat → Nat
  | 0 => seed
  | n + 1 => rngNext (seededRandomState seed n)

/-- generator.ts `seededRandom(seed)` over the source's actual domain:
`seed` is a JS number, and the JS `%` operator is the truncating
remainder, which keeps the dividend's sign (`Int.tmod`).  On integer
states whose products stay below `2^53` the double arithmetic is exact,
so this is the faithful model there. -/
def seededRandomStateI (seed : Int) : Nat → Int
  | 0 => seed
  | n + 1 => (seededRandomStateI seed n * 9301 + 49297).tmod 233280

/-- C9 counterexample: at seed `-6` the first state is
`(-6 * 9301 + 49297) % 233280 = -6509` (JS `%` keeps the dividend's
sign), so the yielded number `-6509 / 233280` is negative — outside
`[0, 1)` — refuting the claim's "for every seed". -/
theorem c9_counterexample :
    seededRandomStateI (-6) 1 = -6509 ∧
    ¬ ((0 : ℚ) ≤ (seededRandomStateI (-6) 1 : ℚ) / 233280) := by
  have h1 : seededRandomStateI (-6) 1 = -6509 := by decide
  refine ⟨h1, ?_⟩
  rw [h1]
  norm_num

/-- C9 (amended): for every **nonnegative** seed whose first product is
exact in double precision (`seed * 9301 + 49297 < 2^53`), the state
stays nonnegative, so the JS truncating remainder coincides with the
mathematical `mod`: the recurrence
`state' = (state * 9301 + 49297) % 233280` holds, the JS-domain state
agrees with the `Nat` model driving the generator embedding, and every
yielded number `state' / 233280` lies in `[0, 1)`. -/
theorem c9_lcg_nonneg_recurrence_and_range (seed : Int) (n : Nat)
    (hseed : 0 ≤ seed) (hexact : seed * 9301 + 49297 < 2 ^ 53) :
    seededRandomStateI seed (n + 1) =
      (seededRandomStateI seed n * 9301 + 49297) % 233280 ∧
    seededRandomStateI seed n = (seededRandomState seed.toNat n : Int) ∧
    (0 : ℚ) ≤ (seededRandomStateI seed (n + 1) : ℚ) / 233280 ∧
    (seededRandomStateI seed (n + 1) : ℚ) / 233280 < 1 := by
  have hnn : ∀ m, 0 ≤ seededRandomStateI seed m := by
    intro m
    induction m with
    | zero => exact hseed
    | succ m ih =>
      exact Int.tmod_nonneg _
        (add_nonneg (mul_nonneg ih (by norm_num)) (by norm_num))
  have hagree : ∀ m, seededRandomStateI seed m = (seededRandomState seed.toNat m : Int) := by
    intro m
    induction m with
    | zero => exact (Int.toNat_of_nonneg hseed).symm
    | succ m ih =>
      show (seededRandomStateI seed m * 9301 + 49297).tmod 233280 =
        (rngNext (seededRandomState seed.toNat m) : Int)
      rw [ih, Int.tmod_eq_emod (by positivity) (by norm_num)]
      unfold rngNext
      push_cast
      ring_nf
  refine ⟨?_, hagree n, ?_, ?_⟩
  · show (seededRandomStateI seed n * 9301 + 49297).tmod 233280 = _
    rw [Int.tmod_eq_emod
      (add_nonneg (mul_nonneg (hnn n) (by norm_num)) (by norm_num)) (by norm_num)]
  · exact div_nonneg (by exact_mod_cast hnn (n + 1)) (by norm_num)
  · rw [div_lt_one (by norm_num)]
    have hlt : seededRandomStateI seed (n + 1) < 233280 :=
      Int.tmod_lt_of_pos _ (by norm_num)
    exact_mod_cast hlt

theorem c9_witness :
    (0 : Int) ≤ 5 ∧ ((5 : Int) * 9301 + 49297 < 2 ^ 53) ∧
    (seededRandomStateI 5 1 = (seededRandomStateI 5 0 * 9301 + 49297) % 233280 ∧
     seededRandomStateI 5 0 = (seededRandomState (5 : Int).toNat 0 : Int) ∧
     (0 : ℚ) ≤ (seededRandomStateI 5 1 : ℚ) / 233280 ∧
     (seededRandomStateI 5 1 : ℚ) / 233280 < 1) :=
  ⟨by decide, by decide, c9_lcg_nonneg_recurrence_and_range 5 0 (by decide) (by decide)⟩

/-- The solver and generator consume the LCG through `rndFloor`, whose
seeded branch is exactly one `seededRandomState` step. -/
theorem rndFloor_seeded_step (env : Env) (st bound : Nat) :
    rndFloor env (Rnd.seeded st) bound =
      (seededRandomState st 1 * bound / 233280, Rnd.seeded (seededRandomState st 1)) :=
  rfl

/-! ### C4 witness -/

/-- A grid whose first empty cell `(0, 3)` has no candidates: `solve`
fails immediately and must hand back the untouched grid. -/
def gridDead4 : SudokuGrid :=
  [[some 1, some 2, some 3, none],
   [none, none, none, some 4],
   [none, none, none, none],
   [none, none, none, none]]

theorem c4_witness :
    ∃ g', solve 1 gridDead4 = some (false, g') ∧ g' = gridDead4 :=
  ⟨gridDead4, by decide, solve_false_restores 1 gridDead4 gridDead4 (by decide)⟩

/-! ### C3: the two solution searches agree -/

theorem countTry_findSolsTry {fuel maxCount : Nat}
    (ih : ∀ g (sols : List SudokuGrid),
      countSolutionsGo fuel maxCount g sols.length =
        (findSolutions fuel maxCount g sols).map List.length) :
    ∀ (nums : List Nat) (g : SudokuGrid) (r c : Nat) (sols : List SudokuGrid),
      countTry (countSolutionsGo fuel maxCount) maxCount g r c nums sols.length =
        (findSolsTry (findSolutions fuel maxCount) maxCount g r c nums sols).map
          List.length := by
  intro nums
  induction nums with
  | nil => intro g r c sols; rfl
  | cons num rest ihn =>
    intro g r c sols
    unfold countTry findSolsTry
    by_cases hv : isValidMove g r c num = true
    · rw [if_pos hv, if_pos hv]
      have h := ih (gset g r c (some num)) sols
      cases hf : findSolutions fuel maxCount (gset g r c (some num)) sols with
      | none =>
        rw [hf] at h
        rw [h]
        rfl
      | some sols2 =>
        rw [hf] at h
        rw [h]
        rw [Option.map_some']
        change (if sols2.length ≥ maxCount then some sols2.length
            else countTry (countSolutionsGo fuel maxCount) maxCount g r c rest sols2.length) =
          Option.map List.length (if sols2.length ≥ maxCount then some sols2
            else findSolsTry (findSolutions fuel maxCount) maxCount g r c rest sols2)
        by_cases hge : sols2.length ≥ maxCount
        · rw [if_pos hge, if_pos hge]
          rfl
        · rw [if_neg hge, if_neg hge]
          exact ihn g r c sols2
    · rw [if_neg hv, if_neg hv]
      exact ihn g r c sols

theorem countGo_findSolutions :
    ∀ (fuel maxCount : Nat) (g : SudokuGrid) (sols : List SudokuGrid),
      countSolutionsGo fuel maxCount g sols.length =
        (findSolutions fuel maxCount g sols).map List.length := by
  intro fuel
  induction fuel with
  | zero => intro maxCount g sols; rfl
  | succ fuel ih =>
    intro maxCount g sols
    unfold countSolutionsGo findSolutions
    by_cases hge : sols.length ≥ maxCount
    · rw [if_pos hge, if_pos hge]
      rfl
    · rw [if_neg hge, if_neg hge]
      cases hfe : findEmptyCell g with
      | none => simp
      | some rc =>
        obtain ⟨r, c⟩ := rc
        exact countTry_findSolsTry (fun g' sols' => ih maxCount g' sols') _ g r c sols

/-- C3: `hasUniqueSolution grid` and `countSolutions grid 2` are the same
search; the boolean is true exactly when the clamped count is 1 (and the
two run out of fuel together). -/
theorem c3_hasUniqueSolution_iff_countSolutions_eq_one (fuel : Nat) (g : SudokuGrid) :
    hasUniqueSolutionR fuel g =
      (countSolutionsR fuel g 2).map (fun n => decide (n = 1)) := by
  unfold hasUniqueSolutionR countSolutionsR hasUniqueSolution countSolutions
  have h := countGo_findSolutions fuel 2 (cloneGrid g) []
  simp only [List.length_nil] at h
  cases hf : findSolutions fuel 2 (cloneGrid g) [] with
  | none =>
    rw [hf] at h
    rw [h]
    rfl
  | some sols =>
    rw [hf] at h
    rw [h]
    rfl

/-! ### Shape and completeness facts about `solve` -/

theorem cloneGrid_eq (g : SudokuGrid) : cloneGrid g = g := by
  simp [cloneGrid]

theorem getCandidates_length_le (g : SudokuGrid) (r c : Nat) :
    (getCandidates g r c).length ≤ g.length := by
  unfold getCandidates
  split
  · simp
  · calc ((List.range' 1 g.length).filter _).length
        ≤ (List.range' 1 g.length).length := List.length_filter_le _ _
      _ = g.length := List.length_range' ..

theorem solveTry_shape {fuel : Nat}
    (ih : ∀ g b g', solve fuel g = some (b, g') →
      g'.length = g.length ∧ (SquareG g → SquareG g')) :
    ∀ (nums : List Nat) (g : SudokuGrid) (r c : Nat) (b : Bool) (g' : SudokuGrid),
      solveTry (solve fuel) g r c nums = some (b, g') →
      g'.length = g.length ∧ (SquareG g → SquareG g') := by
  intro nums
  induction nums with
  | nil =>
    intro g r c b g' h
    unfold solveTry at h
    cases h
    exact ⟨rfl, id⟩
  | cons num rest ihn =>
    intro g r c b g' h
    unfold solveTry at h
    by_cases hv : isValidMove g r c num = true
    · rw [if_pos hv] at h
      cases hrec : solve fuel (gset g r c (some num)) with
      | none =>
        rw [hrec] at h
        exact Option.noConfusion h
      | some bg =>
        obtain ⟨b2, g2⟩ := bg
        rw [hrec] at h
        cases b2
        · dsimp only at h
          have h2 := ih _ _ _ hrec
          rw [gset_length] at h2
          have h3 := ihn (gset g2 r c none) r c b g' h
          rw [gset_length, h2.1] at h3
          refine ⟨h3.1, fun hsq => ?_⟩
          exact h3.2 (squareg_gset (h2.2 (squareg_gset hsq r c _)) r c _)
        · dsimp only at h
          cases h
          have h2 := ih _ _ _ hrec
          rw [gset_length] at h2
          exact ⟨h2.1, fun hsq => h2.2 (squareg_gset hsq r c _)⟩
    · rw [if_neg hv] at h
      exact ihn g r c b g' h

theorem solve_shape :
    ∀ (fuel : Nat) (g : SudokuGrid) (b : Bool) (g' : SudokuGrid),
      solve fuel g = some (b, g') →
      g'.length = g.length ∧ (SquareG g → SquareG g') := by
  intro fuel
  induction fuel with
  | zero =>
    intro g b g' h
    exact Option.noConfusion h
  | succ fuel ih =>
    intro g b g' h
    unfold solve at h
    cases hfe : findEmptyCell g with
    | none =>
      rw [hfe] at h
      cases h
      exact ⟨rfl, id⟩
    | some rc =>
      rw [hfe] at h
      obtain ⟨r, c⟩ := rc
      exact solveTry_shape ih _ g r c b g' h

theorem solveTry_true_complete {fuel : Nat}
    (ih : ∀ g g', solve fuel g = some (true, g') → findEmptyCell g' = none) :
    ∀ (nums : List Nat) (g : SudokuGrid) (r c : Nat) (g' : SudokuGrid),
      solveTry (solve fuel) g r c nums = some (true, g') →
      findEmptyCell g' = none := by
  intro nums
  induction nums with
  | nil =>
    intro g r c g' h
    unfold solveTry at h
    cases h
  | cons num rest ihn =>
    intro g r c g' h
    unfold solveTry at h
    by_cases hv : isValidMove g r c num = true
    · rw [if_pos hv] at h
      cases hrec : solve fuel (gset g r c (some num)) with
      | none =>
        rw [hrec] at h
        exact Option.noConfusion h
      | some bg =>
        obtain ⟨b2, g2⟩ := bg
        rw [hrec] at h
        cases b2
        · dsimp only at h
          exact ihn _ r c g' h
        · dsimp only at h
          cases h
          exact ih _ _ hrec
    · rw [if_neg hv] at h
      exact ihn g r c g' h

theorem solve_true_complete :
    ∀ (fuel : Nat) (g g' : SudokuGrid),
      solve fuel g = some (true, g') → findEmptyCell g' = none := by
  intro fuel
  induction fuel with
  | zero =>
    intro g g' h
    exact Option.noConfusion h
  | succ fuel ih =>
    intro g g' h
    unfold solve at h
    cases hfe : findEmptyCell g with
    | none =>
      rw [hfe] at h
      cases h
      exact hfe
    | some rc =>
      rw [hfe] at h
      obtain ⟨r, c⟩ := rc
      exact solveTry_true_complete ih _ g r c g' h

theorem findEmptyCellGo_eq_none {g : SudokuGrid} :
    ∀ (cells : List (Nat × Nat)) (minC : Nat) (best : Option (Nat × Nat)),
      (g.length < minC ∨ best ≠ none) →
      findEmptyCellGo g cells minC best = none →
      best = none ∧ ∀ p ∈ cells, gcell g p.1 p.2 ≠ none := by
  intro cells
  induction cells with
  | nil =>
    intro minC best _ h
    exact ⟨h, fun p hp => absurd hp (List.not_mem_nil p)⟩
  | cons hd rest ih =>
    obtain ⟨r, c⟩ := hd
    intro minC best hside h
    unfold findEmptyCellGo at h
    by_cases hg : gcell g r c = none
    · rw [if_pos hg] at h
      by_cases h0 : (getCandidates g r c).length = 0
      · rw [if_pos h0] at h
        exact Option.noConfusion h
      · rw [if_neg h0] at h
        by_cases hlt : (getCandidates g r c).length < minC
        · rw [if_pos hlt] at h
          by_cases h1 : (getCandidates g r c).length = 1
          · rw [if_pos h1] at h
            exact Option.noConfusion h
          · rw [if_neg h1] at h
            have := (ih _ (some (r, c)) (Or.inr (by simp)) h).1
            exact Option.noConfusion this
        · rw [if_neg hlt] at h
          rcases hside with hm | hb
          · exact absurd (Nat.lt_of_le_of_lt (getCandidates_length_le g r c) hm) hlt
          · rcases ho : best with _ | p
            · exact absurd ho hb
            · rw [ho] at h
              have := (ih _ (some p) (Or.inr (by simp)) h).1
              exact Option.noConfusion this
    · rw [if_neg hg] at h
      have := ih _ best hside h
      exact ⟨this.1, fun p hp => by
        rcases List.mem_cons.mp hp with hpd | hpr
        · subst hpd
          exact hg
        · exact this.2 p hpr⟩

/-- When `findEmptyCell` finds nothing, every cell of the `N × N` scan
region is filled. -/
theorem findEmptyCell_none_filled {g : SudokuGrid}
    (h : findEmptyCell g = none) :
    ∀ r c, r < g.length → c < g.length → gcell g r c ≠ none := by
  intro r c hr hc
  exact (findEmptyCellGo_eq_none (cellsList g.length) (g.length + 1) none
    (Or.inl (Nat.lt_succ_self _)) h).2 (r, c) (mem_cellsList.mpr ⟨hr, hc⟩)

/-! ### C5: what `getHint` returns -/

/-- An unsolvable 4×4 grid in which every empty cell still has at least
one candidate (the three mutually constraining cells `(0,0)`, `(0,1)`,
`(1,0)` all have candidate set `{1, 2}`). -/
def gridC5 : SudokuGrid :=
  [[none, none, some 3, some 4],
   [none, some 3, some 4, none],
   [none, none, none, none],
   [none, none, none, none]]

/-- C5 counterexample: the MRV cell `(0, 0)` has candidates, yet `getHint`
returns no hint, because the private solve of the unsolvable grid fails —
the claim's "otherwise it returns {row, col, value}" does not hold. -/
theorem c5_counterexample :
    findEmptyCell gridC5 = some (0, 0) ∧
    getCandidates gridC5 0 0 ≠ [] ∧
    getHint 20 gridC5 = some (none, gridC5) := by
  decide

/-- C5 (amended): `getHint` returns no hint exactly in three cases — no
empty cell, an MRV cell with zero candidates, or a failing solve of the
private copy; a returned hint locates the MRV cell and carries that
cell's value in the solved private copy. -/
theorem c5_hint_characterization (fuel : Nat) (g : SudokuGrid)
    (res : Option (Nat × Nat × Nat) × SudokuGrid)
    (h : getHint fuel g = some res) :
    (∀ r c v, res.1 = some (r, c, v) →
      findEmptyCell g = some (r, c) ∧ getCandidates g r c ≠ [] ∧
      ∃ solved, solve fuel (cloneGrid g) = some (true, solved) ∧
        gcell solved r c = some v) ∧
    (res.1 = none →
      findEmptyCell g = none ∨
      ∃ r c, findEmptyCell g = some (r, c) ∧
        (getCandidates g r c = [] ∨
          ∃ gBack, solve fuel (cloneGrid g) = some (false, gBack))) := by
  unfold getHint at h
  cases hfe : findEmptyCell g with
  | none =>
    rw [hfe] at h
    cases h
    exact ⟨fun r c v hv => by simp at hv, fun _ => Or.inl rfl⟩
  | some rc =>
    obtain ⟨r, c⟩ := rc
    rw [hfe] at h
    dsimp only at h
    by_cases h0 : (getCandidates g r c).length = 0
    · rw [if_pos h0] at h
      cases h
      refine ⟨fun r' c' v hv => by simp at hv, fun _ => Or.inr ⟨r, c, rfl, Or.inl ?_⟩⟩
      exact List.length_eq_zero.mp h0
    · rw [if_neg h0] at h
      cases hs : solve fuel (cloneGrid g) with
      | none =>
        rw [hs] at h
        exact Option.noConfusion h
      | some bg =>
        obtain ⟨b, solved⟩ := bg
        rw [hs] at h
        cases b
        · dsimp only at h
          cases h
          exact ⟨fun r' c' v hv => by simp at hv,
            fun _ => Or.inr ⟨r, c, rfl, Or.inr ⟨solved, rfl⟩⟩⟩
        · dsimp only at h
          cases hcell : gcell solved r c with
          | none =>
            -- impossible: the solved copy is complete on the N×N region
            have hsp := solve_shape fuel (cloneGrid g) true solved hs
            rw [cloneGrid_eq] at hsp
            have hcomp := findEmptyCell_none_filled
              (solve_true_complete fuel (cloneGrid g) solved hs)
            have hspec := findEmptyCell_spec hfe
            exact absurd hcell (hcomp r c (by rw [hsp.1]; exact hspec.2.1)
              (by rw [hsp.1]; exact hspec.2.2))
          | some v =>
            rw [hcell] at h
            cases h
            refine ⟨fun r' c' v' hv => ?_, fun hnone => by simp at hnone⟩
            obtain ⟨he1, he2, he3⟩ : r = r' ∧ c = c' ∧ v = v' := by
              simpa using hv
            subst he1; subst he2; subst he3
            exact ⟨rfl, fun hnil => h0 (by rw [hnil]; rfl), solved, rfl, hcell⟩

/-- Witness for the amended C5: a grid with exactly one empty cell. -/
def gridOne4 : SudokuGrid :=
  [[some 1, some 2, some 3, some 4],
   [some 3, some 4, some 1, some 2],
   [some 2, none, some 4, some 3],
   [some 4, some 3, some 2, some 1]]

theorem c5_witness :
    getHint 2 gridOne4 = some (some (2, 1, 1), gridOne4) ∧
    (findEmptyCell gridOne4 = some (2, 1) ∧ getCandidates gridOne4 2 1 ≠ [] ∧
      ∃ solved, solve 2 (cloneGrid gridOne4) = some (true, solved) ∧
        gcell solved 2 1 = some 1) := by
  have h : getHint 2 gridOne4 = some (some (2, 1, 1), gridOne4) := by decide
  exact ⟨h,
    (c5_hint_characterization 2 gridOne4 (some (2, 1, 1), gridOne4) h).1
      2 1 1 rfl⟩

/-! ### C2: classification of non-candidate moves -/

theorem head_getD_mem {α : Type _} (l : List α) (d : α) (h1 : l.length = 1) :
    l.getD 0 d ∈ l := by
  obtain ⟨x, hx⟩ := List.length_eq_one.mp h1
  subst hx
  simp

theorem contains_true_mem {l : List Nat} {v : Nat} (h : l.contains v = true) :
    v ∈ l := by
  simpa [List.contains, List.elem_eq_mem] using h

/-- A value that is not a candidate of the cell cannot produce a hidden
single for that cell: the cell never occurs among the counted
positions. -/
theorem detectHiddenSingle_none_of_not_candidate (g : SudokuGrid)
    (row col v : Nat) (hv : v ∉ getCandidates g row col) :
    detectHiddenSingle g row col v = none := by
  unfold detectHiddenSingle
  have hrow : ¬((countValueInRowCandidates g row v).length = 1 ∧
      (countValueInRowCandidates g row v).getD 0 0 = col) := by
    rintro ⟨h1, h2⟩
    have hm := head_getD_mem _ 0 h1
    rw [h2] at hm
    have hp := (List.mem_filter.mp hm).2
    simp only [Bool.and_eq_true, decide_eq_true_eq] at hp
    exact hv (contains_true_mem hp.2)
  rw [if_neg (by simpa [Bool.and_eq_true, decide_eq_true_eq] using hrow)]
  have hcol : ¬((countValueInColumnCandidates g col v).length = 1 ∧
      (countValueInColumnCandidates g col v).getD 0 0 = row) := by
    rintro ⟨h1, h2⟩
    have hm := head_getD_mem _ 0 h1
    rw [h2] at hm
    have hp := (List.mem_filter.mp hm).2
    simp only [Bool.and_eq_true, decide_eq_true_eq] at hp
    exact hv (contains_true_mem hp.2)
  rw [if_neg (by simpa [Bool.and_eq_true, decide_eq_true_eq] using hcol)]
  have hbox : ¬((countValueInBoxCandidates g row col v).length = 1 ∧
      (countValueInBoxCandidates g row col v).getD 0 (0, 0) = (row, col)) := by
    rintro ⟨h1, h2⟩
    have hm := head_getD_mem _ (0, 0) h1
    rw [h2] at hm
    have hp := (List.mem_filter.mp hm).2
    simp only [Bool.and_eq_true, decide_eq_true_eq] at hp
    exact hv (contains_true_mem hp.2)
  rw [if_neg (by simpa [Bool.and_eq_true, decide_eq_true_eq] using hbox)]

/-- C2 (amended): a move whose value is not in the cell's candidate set is
classified as guessing with confidence 0.3 — unless the naked-pair rule
fires first (`detectNakedSet` ignores the played value), in which case
naked-pair is returned. -/
theorem c2_guessing_of_not_candidate (g : SudokuGrid) (row col v : Nat)
    (hv : v ∉ getCandidates g row col)
    (hn : detectNakedSet g row col v = none) :
    detectStrategy g row col v =
      ⟨Strategy.guessing, 0.3,
        "This move doesn't follow a clear logical pattern. Consider looking for cells with fewer possibilities first.",
        none⟩ := by
  unfold detectStrategy
  have hsingle : ¬((getCandidates g row col).length = 1 ∧
      (getCandidates g row col).getD 0 0 = v) := by
    rintro ⟨h1, h2⟩
    have hm := head_getD_mem _ 0 h1
    rw [h2] at hm
    exact hv hm
  rw [if_neg (by simpa [Bool.and_eq_true, decide_eq_true_eq] using hsingle)]
  rw [detectHiddenSingle_none_of_not_candidate g row col v hv]
  have hcont : (getCandidates g row col).contains v = false := by
    by_contra hc
    exact hv (contains_true_mem (by
      cases hb : (getCandidates g row col).contains v
      · exact absurd hb hc
      · rfl))
  rw [if_neg (by
    simp only [Bool.and_eq_true, decide_eq_true_eq, not_and]
    exact fun _ hc => hv (contains_true_mem hc))]
  rw [hn]
  rw [if_neg (fun hc => hv (contains_true_mem hc))]

/-- The C2 counterexample grid: cells `(0,0)` and `(0,1)` share the
candidate pair `{1, 2}`. -/
def gridC2 : SudokuGrid :=
  [[none, none, some 1, some 2],
   [none, some 1, some 2, none],
   [none, none, none, none],
   [none, none, none, none]]

/-- C2 counterexample: the move `(0, 0) := 1` plays a value outside the
cell's candidate set `{3, 4}`, yet the classifier returns `naked_pair`
(the naked-pair rule never looks at the played value), not `guessing`. -/
theorem c2_counterexample :
    (1 ∉ getCandidates gridC2 0 0) ∧
    (detectStrategy gridC2 0 0 1).strategy = Strategy.naked_pair ∧
    (detectStrategy gridC2 0 0 1).strategy ≠ Strategy.guessing := by
  decide

/-- Witness grid for the amended C2: `(0, 0)` has the single candidate 4,
and no naked pair exists, so playing 1 is classified as guessing. -/
def gridC2w : SudokuGrid :=
  [[none, some 1, some 2, some 3],
   [none, none, none, none],
   [none, none, none, none],
   [none, none, none, none]]

theorem c2_witness :
    (1 ∉ getCandidates gridC2w 0 0) ∧
    detectNakedSet gridC2w 0 0 1 = none ∧
    detectStrategy gridC2w 0 0 1 =
      ⟨Strategy.guessing, 0.3,
        "This move doesn't follow a clear logical pattern. Consider looking for cells with fewer possibilities first.",
        none⟩ :=
  ⟨by decide, by decide,
    c2_guessing_of_not_candidate gridC2w 0 0 1 (by decide) (by decide)⟩

/-! ### The generator's starting grid -/

theorem createEmptyGrid_length (n : Nat) : (createEmptyGrid n).length = n := by
  simp [createEmptyGrid]

theorem createEmptyGrid_square (n : Nat) : SquareG (createEmptyGrid n) := by
  intro row hrow
  rw [createEmptyGrid_length]
  unfold createEmptyGrid at hrow
  rw [List.eq_of_mem_replicate hrow]
  simp

theorem gcell_createEmptyGrid (n r c : Nat) : gcell (createEmptyGrid n) r c = none := by
  simp only [gcell, createEmptyGrid, List.getD_eq_getElem?_getD, List.getElem?_replicate]
  split
  · simp [List.getElem?_replicate]
    split <;> rfl
  · rfl

theorem gset_oob (g : SudokuGrid) (r c : Nat) (v : CellValue)
    (h : ¬(r < g.length ∧ c < (g.getD r []).length)) : gset g r c v = g := by
  unfold gset
  by_cases hr : r < g.length
  · have hc : (g.getD r []).length ≤ c := by
      rcases Nat.lt_or_ge c (g.getD r []).length with hlt | hge
      · exact absurd ⟨hr, hlt⟩ h
      · exact hge
    rw [List.set_eq_of_length_le hc]
    exact list_set_getD_self₀ g r [] hr
  · exact List.set_eq_of_length_le (Nat.le_of_not_lt hr)

theorem foldl_setRow0 (nums : List Nat) :
    ∀ (l : List Nat) (g : SudokuGrid), SquareG g → (∀ x ∈ l, x < g.length) →
    ∀ r c, gcell (l.foldl (fun g c => gset g 0 c (some (nums.getD c 0))) g) r c =
      if r = 0 ∧ c ∈ l then some (nums.getD c 0) else gcell g r c := by
  intro l
  induction l with
  | nil =>
    intro g _ _ r c
    simp
  | cons a rest ih =>
    intro g hsq hlt r c
    have ha : a < g.length := hlt a (List.mem_cons_self _ _)
    have h0 : 0 < g.length := by omega
    rw [List.foldl_cons]
    rw [ih (gset g 0 a (some (nums.getD a 0))) (squareg_gset hsq 0 a _)
      (fun x hx => by rw [gset_length]; exact hlt x (List.mem_cons_of_mem _ hx))]
    by_cases hrest : r = 0 ∧ c ∈ rest
    · rw [if_pos hrest, if_pos ⟨hrest.1, List.mem_cons_of_mem _ hrest.2⟩]
    · rw [if_neg hrest]
      by_cases hac : r = 0 ∧ c = a
      · obtain ⟨hr0, hca⟩ := hac
        subst hr0; subst hca
        rw [gcell_gset_self g 0 c _ h0
          (by rw [squareg_row_len hsq h0]; exact ha)]
        rw [if_pos ⟨rfl, List.mem_cons_self _ _⟩]
      · rw [gcell_gset_ne g 0 a r c _ (fun hp => hac ⟨hp.1, hp.2⟩)]
        rw [if_neg (fun hp => by
          rcases List.mem_cons.mp hp.2 with hca | hcr
          · exact hac ⟨hp.1, hca⟩
          · exact hrest ⟨hp.1, hcr⟩)]

/-- Cell-level description of the generator's first-row grid. -/
theorem gcell_setRow0_empty (nums : List Nat) (n r c : Nat) :
    gcell (setRow0 (createEmptyGrid n) nums n) r c =
      if r = 0 ∧ c < n then some (nums.getD c 0) else none := by
  unfold setRow0
  rw [foldl_setRow0 nums (List.range n) (createEmptyGrid n) (createEmptyGrid_square n)
    (fun x hx => by rw [createEmptyGrid_length]; exact List.mem_range.mp hx)]
  by_cases h : r = 0 ∧ c < n
  · rw [if_pos ⟨h.1, List.mem_range.mpr h.2⟩, if_pos h]
  · rw [if_neg (fun hp => h ⟨hp.1, List.mem_range.mp hp.2⟩), if_neg h,
      gcell_createEmptyGrid]

theorem setRow0_empty_length (nums : List Nat) (n : Nat) :
    (setRow0 (createEmptyGrid n) nums n).length = n := by
  unfold setRow0
  have : ∀ (l : List Nat) (g : SudokuGrid),
      (l.foldl (fun g c => gset g 0 c (some (nums.getD c 0))) g).length = g.length := by
    intro l
    induction l with
    | nil => intro g; rfl
    | cons a rest ih =>
      intro g
      rw [List.foldl_cons, ih, gset_length]
  rw [this, createEmptyGrid_length]

theorem setRow0_empty_square (nums : List Nat) (n : Nat) :
    SquareG (setRow0 (createEmptyGrid n) nums n) := by
  unfold setRow0
  have : ∀ (l : List Nat) (g : SudokuGrid), SquareG g →
      SquareG (l.foldl (fun g c => gset g 0 c (some (nums.getD c 0))) g) := by
    intro l
    induction l with
    | nil => intro g hg; exact hg
    | cons a rest ih =>
      intro g hg
      rw [List.foldl_cons]
      exact ih _ (squareg_gset hg 0 a _)
  exact this _ _ (createEmptyGrid_square n)

/-- A grid with only row 0 set has an empty cell at `(1, 0)`. -/
theorem setRow0_empty_has_empty (nums : List Nat) (n : Nat) :
    gcell (setRow0 (createEmptyGrid n) nums n) 1 0 = none := by
  rw [gcell_setRow0_empty]
  simp

/-! ### Complete grids and `hasUniqueSolution` -/

theorem findEmptyCellGo_all_filled {g : SudokuGrid} :
    ∀ (cells : List (Nat × Nat)) (minC : Nat) (best : Option (Nat × Nat)),
      (∀ p ∈ cells, gcell g p.1 p.2 ≠ none) →
      findEmptyCellGo g cells minC best = best := by
  intro cells
  induction cells with
  | nil => intro minC best _; rfl
  | cons hd rest ih =>
    obtain ⟨r, c⟩ := hd
    intro minC best hfill
    unfold findEmptyCellGo
    rw [if_neg (hfill (r, c) (List.mem_cons_self _ _))]
    exact ih minC best (fun p hp => hfill p (List.mem_cons_of_mem _ hp))

theorem findEmptyCell_of_filled {g : SudokuGrid}
    (h : ∀ r c, r < g.length → c < g.length → gcell g r c ≠ none) :
    findEmptyCell g = none := by
  unfold findEmptyCell
  exact findEmptyCellGo_all_filled _ _ _
    (fun p hp => h p.1 p.2 (mem_cellsList.mp hp).1 (mem_cellsList.mp hp).2)

/-- On a grid with no empty cell the two-solution search immediately
records the single (trivial) solution. -/
theorem hasUniqueSolutionR_of_complete {fuel : Nat} {g : SudokuGrid}
    (h : findEmptyCell g = none) :
    hasUniqueSolutionR fuel g = none ∨ hasUniqueSolutionR fuel g = some true := by
  unfold hasUniqueSolutionR hasUniqueSolution
  cases fuel with
  | zero => exact Or.inl rfl
  | succ fuel =>
    unfold findSolutions
    rw [cloneGrid_eq, if_neg (by simp), h]
    exact Or.inr rfl

/-- The bridge used by the generator: a passed uniqueness check means the
capped solution count is exactly 1. -/
theorem countSolutionsR_of_hasUnique {fuel : Nat} {g : SudokuGrid}
    (h : hasUniqueSolutionR fuel g = some true) :
    countSolutionsR fuel g 2 = some 1 := by
  unfold hasUniqueSolutionR hasUniqueSolution at h
  unfold countSolutionsR countSolutions
  have hrel := countGo_findSolutions fuel 2 (cloneGrid g) []
  simp only [List.length_nil] at hrel
  cases hf : findSolutions fuel 2 (cloneGrid g) [] with
  | none =>
    rw [hf] at h
    exact Option.noConfusion h
  | some sols =>
    rw [hf] at h hrel
    dsimp only at h
    rw [Option.map_some'] at h
    have hb : decide (sols.length = 1) = true := Option.some.inj h
    have hlen : sols.length = 1 := of_decide_eq_true hb
    rw [hrel]
    simp [hlen]

/-! ### `removeNumbers` loop facts -/

/-- Each cell of the grid `removeNumbers` leaves behind is either the
original cell or has been cleared. -/
theorem removeGo_cells {fuel count : Nat} :
    ∀ (pos : List (Nat × Nat)) (g g' : SudokuGrid) (removed : Nat),
      removeGo fuel count pos g removed = some g' →
      ∀ r c, gcell g' r c = gcell g r c ∨ gcell g' r c = none := by
  intro pos
  induction pos with
  | nil =>
    intro g g' removed h r c
    cases h
    exact Or.inl rfl
  | cons hd rest ih =>
    obtain ⟨pr, pc⟩ := hd
    intro g g' removed h r c
    unfold removeGo at h
    by_cases hge : removed ≥ count
    · rw [if_pos hge] at h
      cases h
      exact Or.inl rfl
    · rw [if_neg hge] at h
      dsimp only at h
      cases hu : hasUniqueSolutionR fuel (gset g pr pc none) with
      | none =>
        rw [hu] at h
        exact Option.noConfusion h
      | some b =>
        rw [hu] at h
        cases b
        · dsimp only at h
          have hrestore : gset (gset g pr pc none) pr pc (gcell g pr pc) = g :=
            gset_restore g pr pc none
          rw [hrestore] at h
          exact ih g g' removed h r c
        · dsimp only at h
          rcases ih _ g' (removed + 1) h r c with heq | hnone
          · rw [heq]
            by_cases hp : r = pr ∧ c = pc
            · obtain ⟨h1, h2⟩ := hp
              subst h1; subst h2
              by_cases hin : r < g.length ∧ c < (g.getD r []).length
              · exact Or.inr (gcell_gset_self g r c none hin.1 hin.2)
              · rw [gset_oob g r c none hin]
                exact Or.inl rfl
            · rw [gcell_gset_ne g pr pc r c none hp]
              exact Or.inl rfl
          · exact Or.inr hnone

/-- Invariant of the removal loop: it never turns a
passing-or-out-of-fuel uniqueness status into a failing one, because a
clearing is kept only when the check passes and is otherwise undone. -/
theorem removeGo_not_false {fuel count : Nat} :
    ∀ (pos : List (Nat × Nat)) (g g' : SudokuGrid) (removed : Nat),
      hasUniqueSolutionR fuel g ≠ some false →
      removeGo fuel count pos g removed = some g' →
      hasUniqueSolutionR fuel g' ≠ some false := by
  intro pos
  induction pos with
  | nil =>
    intro g g' removed hinv h
    cases h
    exact hinv
  | cons hd rest ih =>
    obtain ⟨pr, pc⟩ := hd
    intro g g' removed hinv h
    unfold removeGo at h
    by_cases hge : removed ≥ count
    · rw [if_pos hge] at h
      cases h
      exact hinv
    · rw [if_neg hge] at h
      dsimp only at h
      cases hu : hasUniqueSolutionR fuel (gset g pr pc none) with
      | none =>
        rw [hu] at h
        exact Option.noConfusion h
      | some b =>
        rw [hu] at h
        cases b
        · dsimp only at h
          rw [gset_restore g pr pc none] at h
          exact ih g g' removed hinv h
        · dsimp only at h
          exact ih _ g' (removed + 1) (by rw [hu]; simp) h

/-! ### Fisher–Yates shuffles are permutations -/

theorem get_cons_set_perm {α : Type _} :
    ∀ (l : List α) (j : Nat) (hj : j < l.length) (x : α),
      List.Perm (l.get ⟨j, hj⟩ :: l.set j x) (x :: l) := by
  intro l
  induction l with
  | nil =>
    intro j hj
    exact absurd hj (by simp)
  | cons y ys ih =>
    intro j hj x
    cases j with
    | zero => exact List.Perm.swap x y ys
    | succ m =>
      have hm : m < ys.length := by simpa using hj
      show List.Perm (ys.get ⟨m, hm⟩ :: y :: ys.set m x) (x :: y :: ys)
      refine List.Perm.trans (List.Perm.swap _ _ _) ?_
      refine List.Perm.trans ((ih m hm x).cons y) ?_
      exact List.Perm.swap _ _ _

theorem set_set_swap_perm {α : Type _} :
    ∀ (l : List α) (i j : Nat) (hi : i < l.length) (hj : j < l.length),
      List.Perm ((l.set i (l.get ⟨j, hj⟩)).set j (l.get ⟨i, hi⟩)) l := by
  intro l
  induction l with
  | nil =>
    intro i j hi
    exact absurd hi (by simp)
  | cons y ys ih =>
    intro i j hi hj
    cases i with
    | zero =>
      cases j with
      | zero => exact List.Perm.refl _
      | succ m =>
        have hm : m < ys.length := by simpa using hj
        exact get_cons_set_perm ys m hm y
    | succ k =>
      have hk : k < ys.length := by simpa using hi
      cases j with
      | zero => exact get_cons_set_perm ys k hk y
      | succ m =>
        have hm : m < ys.length := by simpa using hj
        exact (ih k m hk hm).cons y

theorem lswap_perm {α : Type _} (l : List α) (i j : Nat) : List.Perm (lswap l i j) l := by
  unfold lswap
  cases hgi : l.get? i with
  | none => exact List.Perm.refl _
  | some a =>
    cases hgj : l.get? j with
    | none => exact List.Perm.refl _
    | some b =>
      obtain ⟨hi, hai⟩ := List.get?_eq_some.mp hgi
      obtain ⟨hj, hbj⟩ := List.get?_eq_some.mp hgj
      subst hai
      subst hbj
      exact set_set_swap_perm l i j hi hj

theorem shuffleGo_perm {α : Type _} (env : Env) :
    ∀ (n : Nat) (l : List α) (r : Rnd), List.Perm (shuffleGo env l r n).1 l := by
  intro n
  induction n with
  | zero => intro l r; exact List.Perm.refl _
  | succ n ih =>
    intro l r
    unfold shuffleGo
    exact (ih _ _).trans (lswap_perm l (n + 1) _)

theorem shuffleArray_perm {α : Type _} (env : Env) (l : List α) (r : Rnd) :
    List.Perm (shuffleArray env l r).1 l :=
  shuffleGo_perm env _ l r

/-- The seeded source never consults the environment. -/
theorem shuffleGo_seeded_env {α : Type _} (env env' : Env) :
    ∀ (n : Nat) (l : List α) (s : Nat),
      shuffleGo env l (Rnd.seeded s) n = shuffleGo env' l (Rnd.seeded s) n := by
  intro n
  induction n with
  | zero => intro l s; rfl
  | succ n ih =>
    intro l s
    unfold shuffleGo rndFloor
    exact ih _ _

theorem shuffleArray_seeded_env {α : Type _} (env env' : Env) (l : List α) (s : Nat) :
    shuffleArray env l (Rnd.seeded s) = shuffleArray env' l (Rnd.seeded s) :=
  shuffleGo_seeded_env env env' _ l s

/-! ### Completeness of the backtracking search -/

/-- The filled cells of `g` agree with `S`. -/
def ExtendsG (g S : SudokuGrid) : Prop :=
  ∀ r c v, gcell g r c = some v → gcell S r c = some v

/-- Every filled cell is a legal placement (partial validity). -/
def ValidP (g : SudokuGrid) : Prop :=
  ∀ r c v, gcell g r c = some v → isValidMove g r c v = true

/-- Every cell of the `N × N` region is filled. -/
def FilledG (g : SudokuGrid) : Prop :=
  ∀ r c, r < g.length → c < g.length → gcell g r c ≠ none

/-- `S` is a complete valid grid extending the partial grid `g`. -/
def SolutionOf (S g : SudokuGrid) : Prop :=
  S.length = g.length ∧ ExtendsG g S ∧ FilledG S ∧ ValidP S

/-- A placement a solution makes is legal in every partial grid the
solution extends. -/
theorem isValidMove_of_solution {S g : SudokuGrid} (hsol : SolutionOf S g)
    {r c v : Nat} (hcell : gcell S r c = some v) :
    isValidMove g r c v = true := by
  obtain ⟨hlen, hext, hfill, hval⟩ := hsol
  have hS := hval r c v hcell
  rw [isValidMove_iff] at hS
  rw [hlen] at hS
  rw [isValidMove_iff]
  obtain ⟨h1, h2, h3, h4, h5, h6, h7⟩ := hS
  refine ⟨h1, h2, h3, h4, ?_, ?_, ?_⟩
  · intro cc hcc hne hgc
    exact h5 cc hcc hne (hext _ _ _ hgc)
  · intro rr hrr hne hgc
    exact h6 rr hrr hne (hext _ _ _ hgc)
  · intro rr cc hrm hcm hne hgc
    exact h7 rr cc hrm hcm hne (hext _ _ _ hgc)

theorem solutionOf_gset {S g : SudokuGrid} (hsol : SolutionOf S g)
    {r c v : Nat} (hcell : gcell S r c = some v) :
    SolutionOf S (gset g r c (some v)) := by
  obtain ⟨hlen, hext, hfill, hval⟩ := hsol
  refine ⟨by rw [gset_length]; exact hlen, ?_, hfill, hval⟩
  intro r' c' v' h'
  by_cases hp : r' = r ∧ c' = c
  · obtain ⟨h1, h2⟩ := hp
    subst h1; subst h2
    by_cases hin : r' < g.length ∧ c' < (g.getD r' []).length
    · rw [gcell_gset_self _ _ _ _ hin.1 hin.2] at h'
      cases h'
      exact hcell
    · rw [gset_oob g r' c' _ hin] at h'
      exact hext _ _ _ h'
  · rw [gcell_gset_ne _ _ _ _ _ _ hp] at h'
    exact hext _ _ _ h'

theorem solveTry_complete {fuel : Nat} {S : SudokuGrid}
    (ihfuel : ∀ g, SolutionOf S g → ∀ h, solve fuel g ≠ some (false, h)) :
    ∀ (nums : List Nat) (g : SudokuGrid) (r c v : Nat),
      gcell g r c = none → SolutionOf S g → gcell S r c = some v → v ∈ nums →
      ∀ h, solveTry (solve fuel) g r c nums ≠ some (false, h) := by
  intro nums
  induction nums with
  | nil =>
    intro g r c v _ _ _ hmem
    exact absurd hmem (List.not_mem_nil v)
  | cons num rest ihn =>
    intro g r c v hempty hsol hcell hmem h hcontra
    unfold solveTry at hcontra
    by_cases hveq : num = v
    · subst hveq
      rw [if_pos (isValidMove_of_solution hsol hcell)] at hcontra
      cases hrec : solve fuel (gset g r c (some num)) with
      | none =>
        rw [hrec] at hcontra
        exact Option.noConfusion hcontra
      | some bg =>
        obtain ⟨b, g2⟩ := bg
        rw [hrec] at hcontra
        cases b
        · exact ihfuel _ (solutionOf_gset hsol hcell) g2 hrec
        · dsimp only at hcontra
          simp at hcontra
    · have hmem2 : v ∈ rest := by
        rcases List.mem_cons.mp hmem with he | hr
        · exact absurd he.symm hveq
        · exact hr
      by_cases hv : isValidMove g r c num = true
      · rw [if_pos hv] at hcontra
        cases hrec : solve fuel (gset g r c (some num)) with
        | none =>
          rw [hrec] at hcontra
          exact Option.noConfusion hcontra
        | some bg =>
          obtain ⟨b, g2⟩ := bg
          rw [hrec] at hcontra
          cases b
          · dsimp only at hcontra
            have hg2 := solve_false_grid_eq fuel _ _ hrec
            rw [hg2, gset_gset, gset_none_of_gcell_none g r c hempty] at hcontra
            exact ihn g r c v hempty hsol hcell hmem2 h hcontra
          · dsimp only at hcontra
            simp at hcontra
      · rw [if_neg hv] at hcontra
        exact ihn g r c v hempty hsol hcell hmem2 h hcontra

/-- Completeness: the backtracking search never reports failure on a grid
that some complete valid grid extends. -/
theorem solve_complete {S : SudokuGrid} :
    ∀ (fuel : Nat) (g : SudokuGrid), SolutionOf S g →
      ∀ h, solve fuel g ≠ some (false, h) := by
  intro fuel
  induction fuel with
  | zero =>
    intro g _ h hc
    exact Option.noConfusion hc
  | succ fuel ih =>
    intro g hsol h hc
    unfold solve at hc
    cases hfe : findEmptyCell g with
    | none =>
      rw [hfe] at hc
      simp at hc
    | some rc =>
      obtain ⟨r, c⟩ := rc
      rw [hfe] at hc
      obtain ⟨hempty, hr, hc2⟩ := findEmptyCell_spec hfe
      obtain ⟨hlen, hext, hfill, hval⟩ := hsol
      cases hcell : gcell S r c with
      | none =>
        exact hfill r c (by rw [hlen]; exact hr) (by rw [hlen]; exact hc2) hcell
      | some v =>
        have hv := (isValidMove_iff S r c v).mp (hval r c v hcell)
        have hmem : v ∈ List.range' 1 g.length := by
          rw [List.mem_range'_1]
          have h1 := hv.2.2.1
          have h2 := hv.2.2.2.1
          rw [hlen] at h2
          omega
        exact solveTry_complete ih _ g r c v hempty ⟨hlen, hext, hfill, hval⟩
          hcell hmem h hc

/-! ### An explicit completion of any first-row permutation -/

/-- Row of the rotated completion: entry `c` is `row0[(c + o) % n]`. -/
def rotRow (row0 : List Nat) (o n : Nat) : List CellValue :=
  (List.range n).map (fun c => some (row0.getD ((c + o) % n) 0))

/-- The rotated completion: row `r` uses offset `offs[r]`.  With the
offsets below this is a valid solved grid for any permutation `row0`. -/
def rotGrid (row0 offs : List Nat) (n : Nat) : SudokuGrid :=
  offs.map (fun o => rotRow row0 o n)

/-- Row offsets per size: within a band of box-rows the offsets differ by
the box height, across bands they shift by 1. -/
def offsetsFor : GridSize → List Nat
  | .four => [0, 2, 1, 3]
  | .six => [0, 3, 1, 4, 2, 5]
  | .nine => [0, 3, 6, 1, 4, 7, 2, 5, 8]

theorem rotGrid_length (row0 offs : List Nat) (n : Nat) :
    (rotGrid row0 offs n).length = offs.length := by
  simp [rotGrid]

theorem gcell_rotGrid (row0 offs : List Nat) (n r c : Nat)
    (hr : r < offs.length) (hc : c < n) :
    gcell (rotGrid row0 offs n) r c =
      some (row0.getD ((c + offs.getD r 0) % n) 0) := by
  unfold gcell rotGrid
  rw [getD_lt _ r [] (by simpa using hr)]
  rw [List.get_map]
  unfold rotRow
  rw [getD_lt _ c none (by simpa using hc)]
  rw [List.get_map, List.get_range]
  rw [getD_lt offs r 0 hr]

theorem rotGrid_filled (row0 offs : List Nat) (n : Nat)
    (hoffs : offs.length = n) : FilledG (rotGrid row0 offs n) := by
  intro r c hr hc
  rw [rotGrid_length] at hr hc
  rw [gcell_rotGrid row0 offs n r c hr (by omega)]
  simp

/-- Validity of the rotated completion, generic in the per-size
arithmetic facts. -/
theorem rotGrid_validP (n br bc : Nat) (offs row0 : List Nat)
    (hbd : getBoxDimensions n = (br, bc))
    (hoffs : offs.length = n)
    (hrow0 : row0.length = n) (hnd : row0.Nodup)
    (hmem : ∀ x ∈ row0, 1 ≤ x ∧ x ≤ n)
    (hnpos : 0 < n)
    (hfact : ∀ r, r < n → ∀ c, c < n → ∀ rr, rr < n → ∀ cc, cc < n →
      (rr = r ∨ cc = c ∨
        (r / br * br ≤ rr ∧ rr < r / br * br + br ∧
         c / bc * bc ≤ cc ∧ cc < c / bc * bc + bc)) →
      ¬(rr = r ∧ cc = c) →
      (cc + offs.getD rr 0) % n ≠ (c + offs.getD r 0) % n)
    (hboxr : ∀ r, r < n → r / br * br + br ≤ n)
    (hboxc : ∀ c, c < n → c / bc * bc + bc ≤ n) :
    ValidP (rotGrid row0 offs n) := by
  have hglen : (rotGrid row0 offs n).length = n := by
    rw [rotGrid_length, hoffs]
  have hval : ∀ i, i < n → 1 ≤ row0.getD i 0 ∧ row0.getD i 0 ≤ n := by
    intro i hi
    refine hmem _ ?_
    rw [getD_lt row0 i 0 (by omega)]
    exact List.get_mem row0 i (by omega)
  have hinj : ∀ i j, i < n → j < n → row0.getD i 0 = row0.getD j 0 → i = j := by
    intro i j hi hj he
    rw [getD_lt row0 i 0 (by omega), getD_lt row0 j 0 (by omega)] at he
    have := (List.Nodup.get_inj_iff hnd).mp he
    simpa using this
  intro r c v hcell
  have hrc : r < n ∧ c < n := by
    constructor
    · have := (gcell_some_bounds hcell).1
      rwa [hglen] at this
    · have h2 := (gcell_some_bounds hcell).2
      have hr : r < n := by
        have := (gcell_some_bounds hcell).1
        rwa [hglen] at this
      have hrow : ((rotGrid row0 offs n).getD r []).length = n := by
        unfold rotGrid
        rw [getD_lt _ r [] (by simpa using by omega : r < (List.map (fun o => rotRow row0 o n) offs).length)]
        rw [List.get_map]
        simp [rotRow]
      rwa [hrow] at h2
  obtain ⟨hr, hc⟩ := hrc
  rw [gcell_rotGrid row0 offs n r c (by omega) hc] at hcell
  have hidx : (c + offs.getD r 0) % n < n := Nat.mod_lt _ hnpos
  have hv : v = row0.getD ((c + offs.getD r 0) % n) 0 := (Option.some.inj hcell).symm
  rw [isValidMove_iff, hglen, hbd]
  dsimp only
  refine ⟨hr, hc, (hv ▸ (hval _ hidx).1), (hv ▸ (hval _ hidx).2), ?_, ?_, ?_⟩
  · intro cc hcc hne hgc
    rw [gcell_rotGrid row0 offs n r cc (by omega) hcc, hv] at hgc
    have he := hinj _ _ (Nat.mod_lt _ hnpos) hidx (Option.some.inj hgc)
    exact hfact r hr c hc r hr cc hcc (Or.inl rfl) (fun hp => hne hp.2) he
  · intro rr hrr hne hgc
    rw [gcell_rotGrid row0 offs n rr c (by omega) hc, hv] at hgc
    have he := hinj _ _ (Nat.mod_lt _ hnpos) hidx (Option.some.inj hgc)
    exact hfact r hr c hc rr hrr c hc (Or.inr (Or.inl rfl)) (fun hp => hne hp.1) he
  · intro rr cc hrm hcm hne hgc
    rw [List.mem_range'] at hrm hcm
    obtain ⟨ir, hir, hirv⟩ := hrm
    obtain ⟨ic, hic, hicv⟩ := hcm
    have hrr : rr < n := by
      have := hboxr r hr
      omega
    have hcc : cc < n := by
      have := hboxc c hc
      omega
    rw [gcell_rotGrid row0 offs n rr cc (by omega) hcc, hv] at hgc
    have he := hinj _ _ (Nat.mod_lt _ hnpos) hidx (Option.some.inj hgc)
    refine hfact r hr c hc rr hrr cc hcc (Or.inr (Or.inr ?_)) ?_ he
    · omega
    · intro hp
      rcases hne with hx | hx
      · exact hx hp.1
      · exact hx hp.2

theorem offsetsFor_length (size : GridSize) :
    (offsetsFor size).length = size.toNat := by
  cases size <;> rfl

set_option synthInstance.maxSize 10000 in
set_option maxHeartbeats 1000000 in
theorem rotGrid_solutionOf (size : GridSize) (numbers : List Nat)
    (hlen : numbers.length = size.toNat) (hnd : numbers.Nodup)
    (hmem : ∀ x ∈ numbers, 1 ≤ x ∧ x ≤ size.toNat) :
    SolutionOf (rotGrid numbers (offsetsFor size) size.toNat)
      (setRow0 (createEmptyGrid size.toNat) numbers size.toNat) := by
  have hoffs := offsetsFor_length size
  have hvalid : ValidP (rotGrid numbers (offsetsFor size) size.toNat) := by
    cases size
    · exact rotGrid_validP 4 2 2 _ numbers rfl rfl hlen hnd hmem (by norm_num)
        (by decide) (by decide) (by decide)
    · exact rotGrid_validP 6 2 3 _ numbers rfl rfl hlen hnd hmem (by norm_num)
        (by decide) (by decide) (by decide)
    · exact rotGrid_validP 9 3 3 _ numbers rfl rfl hlen hnd hmem (by norm_num)
        (by decide) (by decide) (by decide)
  refine ⟨?_, ?_, rotGrid_filled _ _ _ hoffs, hvalid⟩
  · rw [rotGrid_length, hoffs, setRow0_empty_length]
  · intro r c v hcell
    rw [gcell_setRow0_empty] at hcell
    by_cases h : r = 0 ∧ c < size.toNat
    · rw [if_pos h] at hcell
      obtain ⟨hr0, hcn⟩ := h
      subst hr0
      rw [gcell_rotGrid numbers _ _ 0 c (by rw [hoffs]; cases size <;> decide) hcn]
      have hoff0 : (offsetsFor size).getD 0 0 = 0 := by cases size <;> rfl
      rw [hoff0, Nat.add_zero, Nat.mod_eq_of_lt hcn]
      exact hcell
    · rw [if_neg h] at hcell
      exact Option.noConfusion hcell

/-! ### C8: seeded generation is deterministic -/

theorem shuffled_numbers_props (env : Env) (n s : Nat) :
    (shuffleArray env (List.range' 1 n) (Rnd.seeded s)).1.length = n ∧
    (shuffleArray env (List.range' 1 n) (Rnd.seeded s)).1.Nodup ∧
    ∀ x ∈ (shuffleArray env (List.range' 1 n) (Rnd.seeded s)).1,
      1 ≤ x ∧ x ≤ n := by
  have hperm := shuffleArray_perm env (List.range' 1 n) (Rnd.seeded s)
  refine ⟨by rw [hperm.length_eq, List.length_range'], ?_, ?_⟩
  · exact hperm.nodup_iff.mpr (by simpa using List.nodup_range' (s := 1) (n := n))
  · intro x hx
    have := hperm.mem_iff.mp hx
    rw [List.mem_range'_1] at this
    omega

/-- Once a solved grid was produced, the removal loop cannot end in a
state that fails the final uniqueness check: either the solver filled the
grid (and removal preserves the passing check), or the solver claimed
failure, which completeness rules out. -/
theorem attempt_check_not_false (env : Env) (fuel count : Nat)
    (size : GridSize) (s : Nat) {S grid2 : SudokuGrid}
    (hS : generateSolvedGrid env fuel size (some s) = some S)
    (hrm : removeNumbers env fuel (cloneGrid S) count (some s) = some grid2) :
    hasUniqueSolutionR fuel grid2 ≠ some false := by
  unfold generateSolvedGrid at hS
  dsimp only at hS
  rcases hsh : shuffleArray env (List.range' 1 size.toNat) (Rnd.seeded s) with
    ⟨numbers, rnd2⟩
  rw [hsh] at hS
  dsimp only at hS
  obtain ⟨hlen, hnd, hmem⟩ := shuffled_numbers_props env size.toNat s
  rw [hsh] at hlen hnd hmem
  cases hsolve : solve fuel (setRow0 (createEmptyGrid size.toNat) numbers size.toNat) with
  | none =>
    rw [hsolve] at hS
    exact Option.noConfusion hS
  | some bg =>
    obtain ⟨flag, S2⟩ := bg
    rw [hsolve] at hS
    dsimp only at hS
    have hS2 : S2 = S := Option.some.inj hS
    subst hS2
    cases flag
    · exact absurd hsolve
        (solve_complete fuel _ (rotGrid_solutionOf size numbers hlen hnd hmem) S2)
    · have hfill : findEmptyCell S2 = none :=
        solve_true_complete fuel _ S2 hsolve
      unfold removeNumbers at hrm
      dsimp only at hrm
      rcases hsh2 : shuffleArray env (cellsList (cloneGrid S2).length)
          (Rnd.seeded (s * 2)) with ⟨pos2, rnd3⟩
      rw [hsh2] at hrm
      dsimp only at hrm
      rw [cloneGrid_eq] at hrm
      have hinit : hasUniqueSolutionR fuel S2 ≠ some false := by
        rcases @hasUniqueSolutionR_of_complete fuel S2 hfill with h | h <;>
          simp [h]
      exact removeGo_not_false pos2 S2 grid2 0 hinit hrm

/-- Unfolding equation for `generatePuzzle` at a positive retry budget. -/
theorem generatePuzzle_succ (env : Env) (retries fuel : Nat) (size : GridSize)
    (difficulty : Difficulty) (seed : Option Nat) :
    generatePuzzle env (retries + 1) fuel size difficulty seed =
      match generateSolvedGrid env fuel size seed with
      | none => none
      | some solution =>
        match removeNumbers env fuel (cloneGrid solution)
            (size.toNat * size.toNat - getCluesForDifficulty size difficulty) seed with
        | none => none
        | some grid2 =>
          match hasUniqueSolutionR fuel grid2 with
          | none => none
          | some true =>
            some ⟨generatePuzzleId env size difficulty seed, grid2, solution,
              difficulty, size, env.dateNowCreated⟩
          | some false =>
            generatePuzzle env retries fuel size difficulty
              (some (match seed with
                | some s => if s = 0 then env.dateNow else s + 1
                | none => env.dateNow)) := rfl

set_option maxHeartbeats 1000000 in
/-- C8: two calls of `generatePuzzle` with identical size, tier and an
explicitly supplied seed return identical starting grids and identical
solution grids, whatever the non-deterministic environment does. -/
theorem c8_seeded_generation_deterministic (env1 env2 : Env)
    (retries fuel : Nat) (size : GridSize) (difficulty : Difficulty) (s : Nat) :
    (generatePuzzle env1 retries fuel size difficulty (some s)).map
      (fun p => (p.grid, p.solution)) =
    (generatePuzzle env2 retries fuel size difficulty (some s)).map
      (fun p => (p.grid, p.solution)) := by
  cases retries with
  | zero => rfl
  | succ retries =>
    rw [generatePuzzle_succ, generatePuzzle_succ]
    have hgs : generateSolvedGrid env1 fuel size (some s) =
        generateSolvedGrid env2 fuel size (some s) := by
      unfold generateSolvedGrid
      dsimp only
      rw [shuffleArray_seeded_env env1 env2]
    rw [hgs]
    cases hS : generateSolvedGrid env2 fuel size (some s) with
    | none => rfl
    | some S =>
      dsimp only
      have hrm : removeNumbers env1 fuel (cloneGrid S)
          (size.toNat * size.toNat - getCluesForDifficulty size difficulty) (some s) =
        removeNumbers env2 fuel (cloneGrid S)
          (size.toNat * size.toNat - getCluesForDifficulty size difficulty) (some s) := by
        unfold removeNumbers
        dsimp only
        rw [shuffleArray_seeded_env env1 env2]
      rw [hrm]
      cases hrm2 : removeNumbers env2 fuel (cloneGrid S)
          (size.toNat * size.toNat - getCluesForDifficulty size difficulty) (some s) with
      | none => rfl
      | some grid2 =>
        dsimp only
        cases hu : hasUniqueSolutionR fuel grid2 with
        | none => rfl
        | some b =>
          cases b
          · exact absurd hu (attempt_check_not_false env2 fuel _ size s hS hrm2)
          · rfl

/-! ### Machinery for C1: validity is preserved by the search -/

theorem cellsList_nodup (n : Nat) : (cellsList n).Nodup := by
  unfold cellsList
  rw [List.nodup_flatMap]
  constructor
  · intro r _
    exact (List.nodup_range n).map (fun a b h => congrArg Prod.snd h)
  · refine List.Pairwise.imp ?_ (List.nodup_range n)
    intro r1 r2 hne
    intro p hp1 hp2
    simp only [List.mem_map] at hp1 hp2
    obtain ⟨c1, _, hc1⟩ := hp1
    obtain ⟨c2, _, hc2⟩ := hp2
    rw [← hc1] at hc2
    exact hne (congrArg Prod.fst hc2).symm

theorem findEmptyCellGo_skip_filled {g : SudokuGrid} :
    ∀ (pre rest : List (Nat × Nat)) (minC : Nat) (best : Option (Nat × Nat)),
      (∀ p ∈ pre, gcell g p.1 p.2 ≠ none) →
      findEmptyCellGo g (pre ++ rest) minC best = findEmptyCellGo g rest minC best := by
  intro pre
  induction pre with
  | nil => intro rest minC best _; rfl
  | cons hd tl ih =>
    obtain ⟨r, c⟩ := hd
    intro rest minC best hfill
    rw [List.cons_append]
    conv_lhs => unfold findEmptyCellGo
    rw [if_neg (hfill (r, c) (List.mem_cons_self _ _))]
    exact ih rest minC best (fun p hp => hfill p (List.mem_cons_of_mem _ hp))

/-- On a grid whose only empty cell is `(r0, c0)`, the MRV scan returns
exactly that cell. -/
theorem findEmptyCell_unique_empty {g : SudokuGrid} {r0 c0 : Nat}
    (hg : gcell g r0 c0 = none) (hr0 : r0 < g.length) (hc0 : c0 < g.length)
    (huniq : ∀ p, p.1 < g.length → p.2 < g.length → p ≠ (r0, c0) →
      gcell g p.1 p.2 ≠ none) :
    findEmptyCell g = some (r0, c0) := by
  have hmem : (r0, c0) ∈ cellsList g.length := mem_cellsList.mpr ⟨hr0, hc0⟩
  obtain ⟨pre, post, hsplit⟩ := List.append_of_mem hmem
  have hnd : (cellsList g.length).Nodup := cellsList_nodup _
  rw [hsplit] at hnd
  have hdisj := List.disjoint_of_nodup_append hnd
  have hnotpre : (r0, c0) ∉ pre := fun hp =>
    hdisj hp (List.mem_cons_self _ _)
  have hnotpost : (r0, c0) ∉ post :=
    fun hp => ((List.nodup_append.mp hnd).2.1.not_mem ∘ fun h => h) hp
  have hfilled : ∀ p ∈ cellsList g.length, p ≠ (r0, c0) → gcell g p.1 p.2 ≠ none :=
    fun p hp hne => huniq p (mem_cellsList.mp hp).1 (mem_cellsList.mp hp).2 hne
  unfold findEmptyCell
  rw [hsplit, findEmptyCellGo_skip_filled pre _ _ _ (fun p hp => by
    refine hfilled p (by rw [hsplit]; exact List.mem_append_left _ hp) ?_
    intro he
    exact hnotpre (he ▸ hp))]
  unfold findEmptyCellGo
  rw [if_pos hg]
  by_cases h0 : (getCandidates g r0 c0).length = 0
  · rw [if_pos h0]
  · rw [if_neg h0]
    have hle : (getCandidates g r0 c0).length < g.length + 1 :=
      Nat.lt_succ_of_le (getCandidates_length_le g r0 c0)
    rw [if_pos hle]
    by_cases h1 : (getCandidates g r0 c0).length = 1
    · rw [if_pos h1]
    · rw [if_neg h1]
      exact findEmptyCellGo_all_filled post _ _ (fun p hp => by
        refine hfilled p (by
          rw [hsplit]
          exact List.mem_append_right _ (List.mem_cons_of_mem _ hp)) ?_
        intro he
        exact hnotpost (he ▸ hp))

/-- Symmetry of box membership for the supported box dimensions. -/
theorem box_scan_symm {n r c r' c' : Nat}
    (hn : n = 4 ∨ n = 6 ∨ n = 9)
    (hmr : r' / (getBoxDimensions n).1 * (getBoxDimensions n).1 ≤ r ∧
      r < r' / (getBoxDimensions n).1 * (getBoxDimensions n).1 + (getBoxDimensions n).1)
    (hmc : c' / (getBoxDimensions n).2 * (getBoxDimensions n).2 ≤ c ∧
      c < c' / (getBoxDimensions n).2 * (getBoxDimensions n).2 + (getBoxDimensions n).2) :
    (r / (getBoxDimensions n).1 * (getBoxDimensions n).1 ≤ r' ∧
      r' < r / (getBoxDimensions n).1 * (getBoxDimensions n).1 + (getBoxDimensions n).1) ∧
    (c / (getBoxDimensions n).2 * (getBoxDimensions n).2 ≤ c' ∧
      c' < c / (getBoxDimensions n).2 * (getBoxDimensions n).2 + (getBoxDimensions n).2) := by
  rcases hn with h | h | h <;> subst h <;>
    simp only [getBoxDimensions] at hmr hmc ⊢ <;> norm_num at hmr hmc ⊢ <;> omega

/-- A legal placement keeps the grid conflict-free. -/
theorem validP_gset {g : SudokuGrid} (hsq : SquareG g)
    (hn : g.length = 4 ∨ g.length = 6 ∨ g.length = 9)
    (hval : ValidP g) {r c w : Nat} (hempty : gcell g r c = none)
    (hmove : isValidMove g r c w = true) : ValidP (gset g r c (some w)) := by
  have hmi := (isValidMove_iff g r c w).mp hmove
  intro r' c' v' h'
  by_cases hp : r' = r ∧ c' = c
  · obtain ⟨h1, h2⟩ := hp
    subst h1; subst h2
    rw [gcell_gset_self _ _ _ _ hmi.1 (by rw [squareg_row_len hsq hmi.1]; exact hmi.2.1)] at h'
    cases h'
    rw [isValidMove_gset_self]
    exact hmove
  · rw [gcell_gset_ne _ _ _ _ _ _ hp] at h'
    have hvm := (isValidMove_iff g r' c' v').mp (hval r' c' v' h')
    rw [isValidMove_iff, gset_length]
    obtain ⟨k1, k2, k3, k4, k5, k6, k7⟩ := hvm
    have hne' : r' ≠ r ∨ c' ≠ c := by
      by_cases hr : r' = r
      · exact Or.inr (fun hc => hp ⟨hr, hc⟩)
      · exact Or.inl hr
    refine ⟨k1, k2, k3, k4, ?_, ?_, ?_⟩
    · intro cc hcc hne hgc
      by_cases hx : r' = r ∧ cc = c
      · obtain ⟨hx1, hx2⟩ := hx
        subst hx1; subst hx2
        rw [gcell_gset_self _ _ _ _ hmi.1
          (by rw [squareg_row_len hsq hmi.1]; exact hmi.2.1)] at hgc
        cases hgc
        have hc' : c' ≠ cc := by
          rcases hne' with hz | hz
          · exact absurd rfl hz
          · exact hz
        exact hmi.2.2.2.2.1 c' k2 (fun he => hc' he) h'
      · rw [gcell_gset_ne _ _ _ _ _ _ hx] at hgc
        exact k5 cc hcc hne hgc
    · intro rr hrr hne hgc
      by_cases hx : rr = r ∧ c' = c
      · obtain ⟨hx1, hx2⟩ := hx
        subst hx1; subst hx2
        rw [gcell_gset_self _ _ _ _ hmi.1
          (by rw [squareg_row_len hsq hmi.1]; exact hmi.2.1)] at hgc
        cases hgc
        have hr' : r' ≠ rr := by
          rcases hne' with hz | hz
          · exact hz
          · exact absurd rfl hz
        exact hmi.2.2.2.2.2.1 r' k1 (fun he => hr' he) h'
      · rw [gcell_gset_ne _ _ _ _ _ _ hx] at hgc
        exact k6 rr hrr hne hgc
    · intro rr cc hrm hcm hne hgc
      by_cases hx : rr = r ∧ cc = c
      · obtain ⟨hx1, hx2⟩ := hx
        subst hx1; subst hx2
        rw [gcell_gset_self _ _ _ _ hmi.1
          (by rw [squareg_row_len hsq hmi.1]; exact hmi.2.1)] at hgc
        cases hgc
        rw [List.mem_range'] at hrm hcm
        obtain ⟨ir, hirlt, hirv⟩ := hrm
        obtain ⟨ic, hiclt, hicv⟩ := hcm
        have hsymm := @box_scan_symm g.length rr cc r' c' hn
          (by omega) (by omega)
        refine hmi.2.2.2.2.2.2 r' c' ?_ ?_ hne' h'
        · rw [List.mem_range']
          exact ⟨r' - rr / (getBoxDimensions g.length).1 * (getBoxDimensions g.length).1,
            by omega, by omega⟩
        · rw [List.mem_range']
          exact ⟨c' - cc / (getBoxDimensions g.length).2 * (getBoxDimensions g.length).2,
            by omega, by omega⟩
      · rw [gcell_gset_ne _ _ _ _ _ _ hx] at hgc
        exact k7 rr cc hrm hcm hne hgc

theorem solveTry_validP {fuel : Nat}
    (ih : ∀ g b g', solve fuel g = some (b, g') → SquareG g →
      (g.length = 4 ∨ g.length = 6 ∨ g.length = 9) → ValidP g → ValidP g') :
    ∀ (nums : List Nat) (g : SudokuGrid) (r c : Nat) (b : Bool) (g' : SudokuGrid),
      gcell g r c = none → SquareG g →
      (g.length = 4 ∨ g.length = 6 ∨ g.length = 9) → ValidP g →
      solveTry (solve fuel) g r c nums = some (b, g') → ValidP g' := by
  intro nums
  induction nums with
  | nil =>
    intro g r c b g' _ _ _ hval h
    unfold solveTry at h
    cases h
    exact hval
  | cons num rest ihn =>
    intro g r c b g' hempty hsq hn hval h
    unfold solveTry at h
    by_cases hv : isValidMove g r c num = true
    · rw [if_pos hv] at h
      cases hrec : solve fuel (gset g r c (some num)) with
      | none =>
        rw [hrec] at h
        exact Option.noConfusion h
      | some bg =>
        obtain ⟨b2, g2⟩ := bg
        rw [hrec] at h
        cases b2
        · dsimp only at h
          have hg2 := solve_false_grid_eq fuel _ _ hrec
          rw [hg2, gset_gset, gset_none_of_gcell_none g r c hempty] at h
          exact ihn g r c b g' hempty hsq hn hval h
        · dsimp only at h
          cases h
          exact ih _ _ _ hrec (squareg_gset hsq r c _)
            (by rw [gset_length]; exact hn) (validP_gset hsq hn hval hempty hv)
    · rw [if_neg hv] at h
      exact ihn g r c b g' hempty hsq hn hval h

/-- The search only makes legal placements, so partial validity is an
invariant of `solve`. -/
theorem solve_validP :
    ∀ (fuel : Nat) (g : SudokuGrid) (b : Bool) (g' : SudokuGrid),
      solve fuel g = some (b, g') → SquareG g →
      (g.length = 4 ∨ g.length = 6 ∨ g.length = 9) → ValidP g → ValidP g' := by
  intro fuel
  induction fuel with
  | zero =>
    intro g b g' h
    exact Option.noConfusion h
  | succ fuel ih =>
    intro g b g' h hsq hn hval
    unfold solve at h
    cases hfe : findEmptyCell g with
    | none =>
      rw [hfe] at h
      cases h
      exact hval
    | some rc =>
      obtain ⟨r, c⟩ := rc
      rw [hfe] at h
      exact solveTry_validP ih _ g r c b g' (findEmptyCell_spec hfe).1 hsq hn hval h

/-- The generator's first-row grid is conflict-free. -/
theorem setRow0_validP (n : Nat) (numbers : List Nat)
    (hlen : numbers.length = n) (hnd : numbers.Nodup)
    (hmem : ∀ x ∈ numbers, 1 ≤ x ∧ x ≤ n) :
    ValidP (setRow0 (createEmptyGrid n) numbers n) := by
  have hinj : ∀ i j, i < n → j < n →
      numbers.getD i 0 = numbers.getD j 0 → i = j := by
    intro i j hi hj he
    rw [getD_lt numbers i 0 (by omega), getD_lt numbers j 0 (by omega)] at he
    have := (List.Nodup.get_inj_iff hnd).mp he
    simpa using this
  have hrange : ∀ i, i < n → 1 ≤ numbers.getD i 0 ∧ numbers.getD i 0 ≤ n := by
    intro i hi
    refine hmem _ ?_
    rw [getD_lt numbers i 0 (by omega)]
    exact List.get_mem numbers i (by omega)
  intro r c v hcell
  rw [gcell_setRow0_empty] at hcell
  by_cases h : r = 0 ∧ c < n
  · obtain ⟨hr0, hcn⟩ := h
    subst hr0
    rw [if_pos ⟨rfl, hcn⟩] at hcell
    have hv : v = numbers.getD c 0 := (Option.some.inj hcell).symm
    rw [isValidMove_iff, setRow0_empty_length]
    refine ⟨by omega, hcn, hv ▸ (hrange c hcn).1, hv ▸ (hrange c hcn).2, ?_, ?_, ?_⟩
    · intro cc hcc hne hgc
      rw [gcell_setRow0_empty, if_pos ⟨rfl, hcc⟩] at hgc
      have := hinj cc c hcc hcn (by rw [← hv]; exact Option.some.inj hgc)
      exact hne this
    · intro rr _ hne hgc
      rw [gcell_setRow0_empty, if_neg (fun hp => hne hp.1)] at hgc
      exact Option.noConfusion hgc
    · intro rr cc _ hcm hne hgc
      by_cases hrr0 : rr = 0
      · subst hrr0
        by_cases hccn : cc < n
        · rw [gcell_setRow0_empty, if_pos ⟨rfl, hccn⟩] at hgc
          have hccc : cc = c := hinj cc c hccn hcn (by rw [← hv]; exact Option.some.inj hgc)
          rcases hne with hz | hz
          · exact hz rfl
          · exact hz hccc
        · rw [gcell_setRow0_empty, if_neg (fun hp => hccn hp.2)] at hgc
          exact Option.noConfusion hgc
      · rw [gcell_setRow0_empty, if_neg (fun hp => hrr0 hp.1)] at hgc
        exact Option.noConfusion hgc
  · rw [if_neg h] at hcell
    exact Option.noConfusion hcell

/-- In a complete conflict-free grid, the emptied cell's only legal value
is the value which was removed (pigeonhole over the cell's row). -/
theorem unique_candidate_of_filled_valid {S : SudokuGrid}
    (hsq : SquareG S) (hfill : FilledG S) (hval : ValidP S)
    {r0 c0 v : Nat} (hcell : gcell S r0 c0 = some v)
    (hr0 : r0 < S.length) (hc0 : c0 < S.length) :
    ∀ num, isValidMove (gset S r0 c0 none) r0 c0 num = true ↔ num = v := by
  have hrowval : ∀ cc, cc < S.length → ∃ w, gcell S r0 cc = some w := by
    intro cc hcc
    cases hx : gcell S r0 cc with
    | none => exact absurd hx (hfill r0 cc hr0 hcc)
    | some w => exact ⟨w, rfl⟩
  set f : Fin S.length → Nat := fun cc => (gcell S r0 cc.val).getD 0 with hf
  have hfval : ∀ cc : Fin S.length, gcell S r0 cc.val = some (f cc) := by
    intro cc
    obtain ⟨w, hw⟩ := hrowval cc.val cc.isLt
    rw [hw, hf]
    simp [hw]
  have hfinj : Function.Injective f := by
    intro a b hab
    by_contra hne
    have hva := hval r0 a.val (f a) (hfval a)
    rw [isValidMove_iff] at hva
    exact hva.2.2.2.2.1 b.val b.isLt
      (fun he => hne (Fin.ext he).symm) (hab ▸ hfval b)
  have hfmem : ∀ cc : Fin S.length, f cc ∈ Finset.Icc 1 S.length := by
    intro cc
    have := (isValidMove_iff S r0 cc.val (f cc)).mp (hval r0 cc.val (f cc) (hfval cc))
    exact Finset.mem_Icc.mpr ⟨this.2.2.1, this.2.2.2.1⟩
  have himage : Finset.image f Finset.univ = Finset.Icc 1 S.length := by
    refine Finset.eq_of_subset_of_card_le ?_ ?_
    · intro x hx
      obtain ⟨cc, _, hcc⟩ := Finset.mem_image.mp hx
      exact hcc ▸ hfmem cc
    · rw [Finset.card_image_of_injective _ hfinj]
      simp [Nat.card_Icc]
  intro num
  constructor
  · intro hnum
    have hni := (isValidMove_iff _ r0 c0 num).mp hnum
    rw [gset_length] at hni
    have hmemI : num ∈ Finset.Icc 1 S.length :=
      Finset.mem_Icc.mpr ⟨hni.2.2.1, hni.2.2.2.1⟩
    rw [← himage] at hmemI
    obtain ⟨cc, _, hcc⟩ := Finset.mem_image.mp hmemI
    by_cases hc : cc.val = c0
    · have := hfval cc
      rw [hc, hcell] at this
      rw [← hcc]
      exact (Option.some.inj this).symm
    · exfalso
      have hscan := hni.2.2.2.2.1 cc.val cc.isLt hc
      rw [gcell_gset_ne _ _ _ _ _ _ (fun hp => hc hp.2)] at hscan
      exact hscan (hcc ▸ hfval cc)
  · intro hnum
    subst hnum
    rw [isValidMove_gset_self]
    exact hval r0 c0 num hcell

theorem findSolsTry_all_invalid {recur : SudokuGrid → List SudokuGrid → Option (List SudokuGrid)}
    {m : Nat} {g : SudokuGrid} {r c : Nat} :
    ∀ (nums : List Nat) (sols : List SudokuGrid),
      (∀ num ∈ nums, isValidMove g r c num = false) →
      findSolsTry recur m g r c nums sols = some sols := by
  intro nums
  induction nums with
  | nil => intro sols _; rfl
  | cons num rest ih =>
    intro sols hinv
    unfold findSolsTry
    rw [if_neg (by
      rw [hinv num (List.mem_cons_self _ _)]
      simp)]
    exact ih sols (fun x hx => hinv x (List.mem_cons_of_mem _ hx))

theorem findSolsTry_skip_invalid {recur : SudokuGrid → List SudokuGrid → Option (List SudokuGrid)}
    {m : Nat} {g : SudokuGrid} {r c : Nat} :
    ∀ (pre rest : List Nat) (sols : List SudokuGrid),
      (∀ num ∈ pre, isValidMove g r c num = false) →
      findSolsTry recur m g r c (pre ++ rest) sols =
        findSolsTry recur m g r c rest sols := by
  intro pre
  induction pre with
  | nil => intro rest sols _; rfl
  | cons num tl ih =>
    intro rest sols hinv
    rw [List.cons_append]
    conv_lhs => unfold findSolsTry
    rw [if_neg (by
      rw [hinv num (List.mem_cons_self _ _)]
      simp)]
    exact ih rest sols (fun x hx => hinv x (List.mem_cons_of_mem _ hx))

/-- Clearing one cell of a complete conflict-free grid leaves a grid on
which the capped search finds exactly the original grid back (or runs out
of fuel). -/
theorem findSolutions_one_empty {S : SudokuGrid}
    (hsq : SquareG S) (hfill : FilledG S) (hval : ValidP S)
    {r0 c0 v : Nat} (hcell : gcell S r0 c0 = some v)
    (hr0 : r0 < S.length) (hc0 : c0 < S.length) :
    ∀ fuel, findSolutions fuel 2 (gset S r0 c0 none) [] = none ∨
      findSolutions fuel 2 (gset S r0 c0 none) [] = some [S] := by
  intro fuel
  cases fuel with
  | zero => exact Or.inl rfl
  | succ fuel =>
    have hg1len : (gset S r0 c0 none).length = S.length := gset_length ..
    have hempty1 : gcell (gset S r0 c0 none) r0 c0 = none :=
      gcell_gset_self S r0 c0 none hr0 (by rw [squareg_row_len hsq hr0]; exact hc0)
    have hfe : findEmptyCell (gset S r0 c0 none) = some (r0, c0) := by
      refine findEmptyCell_unique_empty hempty1 (by rw [hg1len]; exact hr0)
        (by rw [hg1len]; exact hc0) ?_
      intro p hp1 hp2 hne
      rw [gcell_gset_ne _ _ _ _ _ _ (fun hx => hne (Prod.ext hx.1 hx.2))]
      exact hfill p.1 p.2 (by rw [← hg1len]; exact hp1) (by rw [← hg1len]; exact hp2)
    have hiff := unique_candidate_of_filled_valid hsq hfill hval hcell hr0 hc0
    have hvrange : 1 ≤ v ∧ v ≤ S.length := by
      have := (isValidMove_iff S r0 c0 v).mp (hval r0 c0 v hcell)
      exact ⟨this.2.2.1, this.2.2.2.1⟩
    have hvmem : v ∈ List.range' 1 (gset S r0 c0 none).length := by
      rw [hg1len, List.mem_range'_1]
      omega
    obtain ⟨pre, post, hsplit⟩ := List.append_of_mem hvmem
    have hnd : (List.range' 1 (gset S r0 c0 none).length).Nodup := by
      simpa using List.nodup_range' (s := 1) (n := (gset S r0 c0 none).length)
    rw [hsplit] at hnd
    have hdisj := List.disjoint_of_nodup_append hnd
    have hvnotpre : v ∉ pre := fun hp => hdisj hp (List.mem_cons_self _ _)
    have hvnotpost : v ∉ post := ((List.nodup_append.mp hnd).2.1).not_mem
    have hinvalid : ∀ num, num ≠ v → isValidMove (gset S r0 c0 none) r0 c0 num = false := by
      intro num hne
      cases hb : isValidMove (gset S r0 c0 none) r0 c0 num
      · rfl
      · exact absurd ((hiff num).mp hb) hne
    have hback : gset (gset S r0 c0 none) r0 c0 (some v) = S := by
      have hx := gset_restore S r0 c0 none
      rwa [hcell] at hx
    have heval : findSolutions (fuel + 1) 2 (gset S r0 c0 none) [] =
        match findSolutions fuel 2 S [] with
        | none => none
        | some sols2 =>
          if sols2.length ≥ 2 then some sols2
          else findSolsTry (findSolutions fuel 2) 2 (gset S r0 c0 none) r0 c0
            post sols2 := by
      conv_lhs => unfold findSolutions
      rw [if_neg (by simp), hfe]
      dsimp only
      rw [hsplit, findSolsTry_skip_invalid pre _ _
        (fun num hnum => hinvalid num (fun he => hvnotpre (he ▸ hnum)))]
      conv_lhs => unfold findSolsTry
      rw [if_pos ((hiff v).mpr rfl), hback]
    rw [heval]
    cases fuel with
    | zero => exact Or.inl rfl
    | succ fuel =>
      have hSsols : findSolutions (fuel + 1) 2 S [] = some [S] := by
        conv_lhs => unfold findSolutions
        rw [if_neg (by simp), findEmptyCell_of_filled hfill]
        rw [cloneGrid_eq]
        simp
      rw [hSsols]
      dsimp only
      rw [if_neg (by simp)]
      rw [findSolsTry_all_invalid post _
        (fun num hnum => hinvalid num (fun he => hvnotpost (he ▸ hnum)))]
      exact Or.inr rfl

/-- Uniqueness status after clearing one cell of a complete grid. -/
theorem hasUniqueR_one_empty {S : SudokuGrid}
    (hsq : SquareG S) (hfill : FilledG S) (hval : ValidP S)
    {r0 c0 v : Nat} (hcell : gcell S r0 c0 = some v)
    (hr0 : r0 < S.length) (hc0 : c0 < S.length) (fuel : Nat) :
    hasUniqueSolutionR fuel (gset S r0 c0 none) = none ∨
    hasUniqueSolutionR fuel (gset S r0 c0 none) = some true := by
  unfold hasUniqueSolutionR hasUniqueSolution
  rw [cloneGrid_eq]
  rcases findSolutions_one_empty hsq hfill hval hcell hr0 hc0 fuel with h | h
  · rw [h]
    exact Or.inl rfl
  · rw [h]
    exact Or.inr rfl

/-! ### C1: generated puzzles are uniquely solvable and not complete -/

theorem generatePuzzle_zero (env : Env) (fuel : Nat) (size : GridSize)
    (difficulty : Difficulty) (seed : Option Nat) :
    generatePuzzle env 0 fuel size difficulty seed = none := rfl

theorem clues_lt_total (size : GridSize) (difficulty : Difficulty) :
    getCluesForDifficulty size difficulty < size.toNat * size.toNat := by
  cases size <;> cases difficulty <;> decide

/-- C1: any puzzle `generatePuzzle` returns has a starting grid whose
capped solution count is exactly 1 and which has at least one empty
cell. -/
theorem c1_puzzle_unique_solution_and_has_empty (env : Env)
    (retries fuel : Nat) (size : GridSize) (difficulty : Difficulty)
    (s : Nat) (p : Puzzle)
    (h : generatePuzzle env retries fuel size difficulty (some s) = some p) :
    countSolutionsR fuel p.grid 2 = some 1 ∧
    ∃ r c, r < size.toNat ∧ c < size.toNat ∧ gcell p.grid r c = none := by
  induction retries generalizing s with
  | zero =>
    rw [generatePuzzle_zero] at h
    exact Option.noConfusion h
  | succ retries ih =>
    rw [generatePuzzle_succ] at h
    cases hS : generateSolvedGrid env fuel size (some s) with
    | none =>
      rw [hS] at h
      exact Option.noConfusion h
    | some S =>
      rw [hS] at h
      dsimp only at h
      cases hrm : removeNumbers env fuel (cloneGrid S)
          (size.toNat * size.toNat - getCluesForDifficulty size difficulty) (some s) with
      | none =>
        rw [hrm] at h
        exact Option.noConfusion h
      | some grid2 =>
        rw [hrm] at h
        dsimp only at h
        cases hu : hasUniqueSolutionR fuel grid2 with
        | none =>
          rw [hu] at h
          exact Option.noConfusion h
        | some b =>
          rw [hu] at h
          cases b
          · dsimp only at h
            exact ih _ h
          · dsimp only at h
            have hp : p.grid = grid2 := by
              rw [← Option.some.inj h]
            rw [hp]
            refine ⟨countSolutionsR_of_hasUnique hu, ?_⟩
            -- analyse how the solved grid was built
            unfold generateSolvedGrid at hS
            dsimp only at hS
            rcases hsh : shuffleArray env (List.range' 1 size.toNat)
                (Rnd.seeded s) with ⟨numbers, rnd2⟩
            rw [hsh] at hS
            dsimp only at hS
            obtain ⟨hlen, hnd, hmem⟩ := shuffled_numbers_props env size.toNat s
            rw [hsh] at hlen hnd hmem
            dsimp only at hlen hnd hmem
            -- the removal loop on the clone of S
            unfold removeNumbers at hrm
            dsimp only at hrm
            rcases hsh2 : shuffleArray env (cellsList (cloneGrid S).length)
                (Rnd.seeded (s * 2)) with ⟨pos2, rnd3⟩
            rw [hsh2] at hrm
            dsimp only at hrm
            rw [cloneGrid_eq] at hrm
            have hpos2 := shuffleArray_perm env
              (cellsList (cloneGrid S).length) (Rnd.seeded (s * 2))
            rw [hsh2] at hpos2
            dsimp only at hpos2
            rw [cloneGrid_eq] at hpos2
            cases hsolve : solve fuel
                (setRow0 (createEmptyGrid size.toNat) numbers size.toNat) with
            | none =>
              rw [hsolve] at hS
              exact Option.noConfusion hS
            | some bg =>
              obtain ⟨flag, S2⟩ := bg
              rw [hsolve] at hS
              dsimp only at hS
              have hS2 : S2 = S := Option.some.inj hS
              subst hS2
              have hSlen : S2.length = size.toNat := by
                rw [(solve_shape fuel _ flag S2 hsolve).1, setRow0_empty_length]
              cases flag
              · -- the solver failed, so S is still the first-row grid
                have hrow : S2 = setRow0 (createEmptyGrid size.toNat) numbers size.toNat :=
                  solve_false_grid_eq fuel _ _ hsolve
                refine ⟨1, 0, by cases size <;> decide, by cases size <;> decide, ?_⟩
                rcases removeGo_cells pos2 S2 grid2 0 hrm 1 0 with heq | hnone
                · rw [heq, hrow]
                  exact setRow0_empty_has_empty numbers size.toNat
                · exact hnone
              · -- the solver filled the grid: remove the first position
                have hsqS : SquareG S2 :=
                  (solve_shape fuel _ true S2 hsolve).2 (setRow0_empty_square numbers size.toNat)
                have hfillS : FilledG S2 :=
                  findEmptyCell_none_filled (solve_true_complete fuel _ S2 hsolve)
                have hvalS : ValidP S2 :=
                  solve_validP fuel _ true S2 hsolve
                    (setRow0_empty_square numbers size.toNat)
                    (by rw [setRow0_empty_length]; cases size
                        · exact Or.inl rfl
                        · exact Or.inr (Or.inl rfl)
                        · exact Or.inr (Or.inr rfl))
                    (setRow0_validP size.toNat numbers hlen hnd hmem)
                cases pos2 with
                | nil =>
                  exfalso
                  have h00 : (0, 0) ∈ cellsList S2.length :=
                    mem_cellsList.mpr ⟨by rw [hSlen]; cases size <;> decide,
                      by rw [hSlen]; cases size <;> decide⟩
                  exact absurd (hpos2.symm.subset h00) (List.not_mem_nil _)
                | cons p0 rest =>
                  obtain ⟨r0, c0⟩ := p0
                  have hp0mem : (r0, c0) ∈ cellsList S2.length :=
                    hpos2.subset (List.mem_cons_self _ _)
                  have hr0 : r0 < S2.length := (mem_cellsList.mp hp0mem).1
                  have hc0 : c0 < S2.length := (mem_cellsList.mp hp0mem).2
                  have hcount := clues_lt_total size difficulty
                  unfold removeGo at hrm
                  rw [if_neg (by omega)] at hrm
                  dsimp only at hrm
                  cases hv : gcell S2 r0 c0 with
                  | none => exact absurd hv (hfillS r0 c0 hr0 hc0)
                  | some v =>
                    rcases hasUniqueR_one_empty hsqS hfillS hvalS hv hr0 hc0 fuel with
                      hx | hx
                    · rw [hx] at hrm
                      exact Option.noConfusion hrm
                    · rw [hx] at hrm
                      dsimp only at hrm
                      refine ⟨r0, c0, by rw [← hSlen]; exact hr0,
                        by rw [← hSlen]; exact hc0, ?_⟩
                      rcases removeGo_cells rest _ grid2 1 hrm r0 c0 with heq | hnone
                      · rw [heq]
                        exact gcell_gset_self S2 r0 c0 none hr0
                          (by rw [squareg_row_len hsqS hr0]; exact hc0)
                      · exact hnone

/-- A concrete environment for evaluating seeded generation (the external
random oracle and clock are never consulted on the seeded path). -/
def envC1 : Env := ⟨fun _ _ _ => 0, 1, 0, 0⟩

/-- The puzzle produced for a 4×4 beginner board from seed 1. -/
def puzzleC1 : Puzzle :=
  (generatePuzzle envC1 2 100 GridSize.four Difficulty.beginner (some 1)).getD
    ⟨"", [], [], Difficulty.beginner, GridSize.four, 0⟩

theorem c1_witness :
    countSolutionsR 100 puzzleC1.grid 2 = some 1 ∧
    ∃ r c, r < GridSize.four.toNat ∧ c < GridSize.four.toNat ∧
      gcell puzzleC1.grid r c = none :=
  c1_puzzle_unique_solution_and_has_empty envC1 2 100 GridSize.four
    Difficulty.beginner 1 puzzleC1 (by rfl)
